import Mathlib

/-!
Verification of the Response Validation & Correction Engine
(response-parser.ts, math-validator.ts, response-corrector.ts).

JS strings are modelled as `List Char` (the engine's inputs are ASCII, so
UTF-16 code-unit indexing coincides with character indexing), JS numbers as
exact rationals `ℚ` (every numeric literal reached by the verified
statements is a small terminating decimal, where double rounding does not
change any comparison made by the code), and fallible operations return
`Option`.  Regular expressions are embedded by a small backtracking engine
whose candidate ordering follows a JS engine (leftmost alternative first,
greedy longest-first); all recursion is structural on an explicit fuel so
that every definition evaluates inside the kernel.
-/

set_option maxHeartbeats 4000000
set_option maxRecDepth 8000

namespace DaniSpec

/-- A JS string: list of characters. -/
abbrev JStr := List Char

/-- `Math.abs(a - b)` for natural offsets. -/
def natDist (a b : Nat) : Nat := max a b - min a b

/-- JS `text.substring(a, b)` for `a ≤ b`: the characters in positions
`[a, b)`, clamped to the string. -/
def substringJS (s : JStr) (a b : Nat) : JStr := (s.drop a).take (b - a)

/-- JS `String.prototype.split(sep)` for a single-character separator. -/
def splitOnChar (sep : Char) : JStr → List JStr
  | [] => [[]]
  | c :: rest =>
    if c = sep then [] :: splitOnChar sep rest
    else
      match splitOnChar sep rest with
      | [] => [[c]]
      | l :: ls => (c :: l) :: ls

/-- Does `pat` occur at the start of `s`? -/
def startsWithJ : JStr → JStr → Bool
  | _, [] => true
  | [], _ :: _ => false
  | c :: cs, p :: ps => c == p && startsWithJ cs ps

/-- Position (counting from `i`) of the first occurrence of `pat` in `s`. -/
def indexOfSubFrom (pat : JStr) : JStr → Nat → Option Nat
  | [], i => if startsWithJ [] pat then some i else none
  | s@(_ :: rest), i => if startsWithJ s pat then some i else indexOfSubFrom pat rest (i + 1)

/-- JS `s.indexOf(pat)`. -/
def indexOfSub (s pat : JStr) : Option Nat := indexOfSubFrom pat s 0

/-- JS `s.indexOf(pat, from)`. -/
def indexOfFrom (s pat : JStr) (start : Nat) : Option Nat :=
  (indexOfSub (s.drop start) pat).map (· + start)

/-- JS `s.includes(pat)`. -/
def containsSub (s pat : JStr) : Bool := (indexOfSub s pat).isSome

/-- JS `s.replace(pat, repl)` with a plain-string pattern: replaces the first
occurrence only. -/
def jsReplaceFirst (s pat repl : JStr) : JStr :=
  match indexOfSub s pat with
  | none => s
  | some i => s.take i ++ repl ++ s.drop (i + pat.length)

/-- ASCII lower-casing, the fragment of `String.prototype.toLowerCase` the
inputs exercise. -/
def asciiLower (c : Char) : Char :=
  if 'A' ≤ c && c ≤ 'Z' then Char.ofNat (c.toNat + 32) else c

/-- JS `s.toLowerCase()` on ASCII text. -/
def toLowerJ (s : JStr) : JStr := s.map asciiLower

/-- ASCII whitespace, the fragment of JS `\s` (and of `String.prototype.trim`)
that the inputs exercise. -/
def isWsChar (c : Char) : Bool :=
  c == ' ' || c == '\t' || c == '\n' || c == '\r' || c == '\x0b' || c == '\x0c'

/-- JS `s.trim()`. -/
def trimJS (s : JStr) : JStr :=
  ((s.dropWhile isWsChar).reverse.dropWhile isWsChar).reverse

/-! Batteries marks `Rat.add`, `Rat.sub`, `Rat.mul`, `Rat.inv`
`@[irreducible]`, which stops `decide` from evaluating concrete runs of the
engine.  The operations below are the same rational arithmetic written on
`Rat.divInt`, which does reduce; the bridge lemmas in the theorem section
identify them with the standard operations. -/

/-- Kernel-reducible `a + b` on `ℚ`. -/
def qadd (a b : ℚ) : ℚ := Rat.divInt (a.num * b.den + b.num * a.den) (a.den * b.den)

/-- Kernel-reducible `a - b` on `ℚ`. -/
def qsub (a b : ℚ) : ℚ := Rat.divInt (a.num * b.den - b.num * a.den) (a.den * b.den)

/-- Kernel-reducible `a * b` on `ℚ`. -/
def qmul (a b : ℚ) : ℚ := Rat.divInt (a.num * b.num) (a.den * b.den)

/-- Kernel-reducible `a / b` on `ℚ` (0 at `b = 0`, as in Mathlib). -/
def qdiv (a b : ℚ) : ℚ := Rat.divInt (a.num * b.den) (a.den * b.num)

/-- Kernel-reducible `|a|` on `ℚ`. -/
def qabs (a : ℚ) : ℚ := if a < 0 then -a else a

/-- Kernel-reducible `a ^ n` on `ℚ`. -/
def qpow (a : ℚ) (n : Nat) : ℚ := Rat.divInt (a.num ^ n) ((a.den : Int) ^ n)

/-- Kernel-reducible `a ^ z` on `ℚ`. -/
def qzpow (a : ℚ) : Int → ℚ
  | .ofNat n => qpow a n
  | .negSucc n => qdiv 1 (qpow a (n + 1))

/-- Kernel-reducible `⌊a⌋`. -/
def qfloor (a : ℚ) : Int := Rat.floor a

/-- Kernel-reducible `round a` (`⌊a + 1/2⌋`). -/
def qround (a : ℚ) : Int := qfloor (qadd a (Rat.divInt 1 2))

/-- ASCII decimal digit. -/
def isDigitJ (c : Char) : Bool := '0' ≤ c && c ≤ '9'

/-- Value of a digit string. -/
def digitsToNat (ds : JStr) : Nat := ds.foldl (fun acc c => acc * 10 + (c.toNat - 48)) 0

/-- Decimal rendering of a natural number. -/
def natToStr (n : Nat) : JStr := Nat.toDigits 10 n

/-- Decimal rendering of an integer. -/
def intToStr (i : Int) : JStr :=
  if i < 0 then '-' :: natToStr i.natAbs else natToStr i.natAbs

/-- `parseInt(s, 10)` restricted to the all-digit captures produced by the
claim patterns. -/
def parseIntJS (s : JStr) : ℚ := (digitsToNat (s.takeWhile isDigitJ) : ℚ)

/-- `parseFloat(s)` for captures of the shape `\d+(\.\d+)?`. -/
def parseFloatJS (s : JStr) : ℚ :=
  let ipart := s.takeWhile isDigitJ
  let rest := s.dropWhile isDigitJ
  let iv : ℚ := (digitsToNat ipart : ℚ)
  match rest with
  | '.' :: r2 =>
    let fpart := r2.takeWhile isDigitJ
    qadd iv (qdiv (digitsToNat fpart : ℚ) (qpow 10 fpart.length))
  | _ => iv

/-- Successive decimal digits of a fraction in `[0, 1)`; fuel-truncated (the
values reached by the verified statements are terminating decimals). -/
def fracDigits : Nat → ℚ → List Char
  | 0, _ => []
  | fuel + 1, q =>
    if q = 0 then []
    else
      let q10 := qmul q 10
      let d := (qfloor q10).toNat
      Char.ofNat (48 + d) :: fracDigits fuel (qsub q10 ((qfloor q10 : Int) : ℚ))

/-- `Number.prototype.toString` on the rationals arising here: terminating
decimals print exactly (as in JS); other expansions are truncated at 20
digits, a case no verified statement reaches. -/
def jsNumToString (q : ℚ) : JStr :=
  let sgn : JStr := if q < 0 then ['-'] else []
  let a := qabs q
  let ip := (qfloor a).toNat
  let fp := qsub a ((qfloor a : Int) : ℚ)
  if fp = 0 then sgn ++ natToStr ip
  else sgn ++ natToStr ip ++ '.' :: fracDigits 20 fp

/-- `Number.prototype.toFixed(d)` modelled over exact rationals with
round-half-up; JS rounds the underlying double, which agrees on every value
reached by the verified statements. -/
def toFixedJS (q : ℚ) (d : Nat) : JStr :=
  let scaled : Int := qround (qmul q (qpow 10 d))
  let sgn : JStr := if scaled < 0 then ['-'] else []
  let n := scaled.natAbs
  if d = 0 then sgn ++ natToStr n
  else
    let ip := n / 10 ^ d
    let fpn := n % 10 ^ d
    let fs := natToStr fpn
    sgn ++ natToStr ip ++ '.' :: (List.replicate (d - fs.length) '0' ++ fs)

/-! ## A small backtracking regex engine

Each source pattern is transcribed into the `RE` syntax below.  `run`
enumerates the candidate matches at a fixed position in the preference order
of a JS engine, so taking the head of the list gives the JS match. -/

/-- Regex syntax: character classes are predicates; `grp` marks capture
group 1 (each source pattern has exactly one group, and never under a
quantifier); `bol`/`eol` are `^`/`$` with the `m` flag. -/
inductive RE where
  | eps
  | cls (p : Char → Bool)
  | seq (a b : RE)
  | alt (a b : RE)
  | star (a : RE) (lazy : Bool)
  | grp (a : RE)
  | bol
  | eol

/-- A literal character. -/
def chr (c : Char) : RE := .cls (fun x => x == c)

/-- A case-insensitive letter (the `/i` flag; `c` is given lowercase). -/
def ci (c : Char) : RE := .cls (fun x => x == c || asciiLower x == c)

/-- Sequence a list of regexes. -/
def seqList (l : List RE) : RE := l.foldr .seq .eps

/-- Case-insensitive literal word. -/
def wordCI (s : String) : RE := seqList (s.toList.map ci)

/-- Greedy `?`. -/
def reOpt (a : RE) : RE := .alt a .eps

/-- Greedy `+`. -/
def rePlus (a : RE) : RE := .seq a (.star a false)

/-- Lazy `+?`. -/
def lazyPlus (a : RE) : RE := .seq a (.star a true)

/-- `\s`. -/
def wsCls : RE := .cls isWsChar

/-- `\d`. -/
def digitCls : RE := .cls isDigitJ

/-- `.` (anything but a line terminator). -/
def dotCls : RE := .cls (fun c => !(c == '\n' || c == '\r'))

/-- `\s*`. -/
def ws0 : RE := .star wsCls false

/-- `\s+`. -/
def ws1 : RE := rePlus wsCls

/-- Structural size of a regex, used to bound the matcher's fuel. -/
def reSize : RE → Nat
  | .eps => 1
  | .cls _ => 1
  | .bol => 1
  | .eol => 1
  | .seq a b => reSize a + reSize b + 1
  | .alt a b => reSize a + reSize b + 1
  | .star a _ => reSize a + 1
  | .grp a => reSize a + 1

/-- Shortest length any match of a regex can have. -/
def minLen : RE → Nat
  | .eps => 0
  | .cls _ => 1
  | .bol => 0
  | .eol => 0
  | .seq a b => minLen a + minLen b
  | .alt a b => min (minLen a) (minLen b)
  | .star _ _ => 0
  | .grp a => minLen a

/-- Candidate matches: consumed length and the capture of group 1. -/
abbrev MRes := List (Nat × Option JStr)

/-- The character just before position `n` of `s` (`prev` when `n = 0`),
used to evaluate `^` in multiline mode. -/
def prevAfter (s : JStr) (prev : Option Char) (n : Nat) : Option Char :=
  match (s.take n).reverse with
  | [] => prev
  | c :: _ => some c

/-- All candidate matches of `re` at the start of `s`, in JS preference
order (leftmost alternative first, greedy longest-first, lazy
shortest-first).  `prev` is the character preceding `s` in the whole
subject.  Zero-length quantifier iterations are pruned, exactly as a JS
engine terminates them.  `fuel` bounds recursion depth; `runFuel` below is
ample for the source's patterns. -/
def run : Nat → RE → JStr → Option Char → MRes
  | 0, _, _, _ => []
  | _ + 1, .eps, _, _ => [(0, none)]
  | _ + 1, .cls p, s, _ =>
    match s with
    | [] => []
    | c :: _ => if p c then [(1, none)] else []
  | _ + 1, .bol, _, prev =>
    if prev = none ∨ prev = some '\n' ∨ prev = some '\r' then [(0, none)] else []
  | _ + 1, .eol, s, _ =>
    match s with
    | [] => [(0, none)]
    | c :: _ => if c = '\n' ∨ c = '\r' then [(0, none)] else []
  | fuel + 1, .seq a b, s, prev =>
    (run fuel a s prev).flatMap fun nc =>
      (run fuel b (s.drop nc.1) (prevAfter s prev nc.1)).map fun mc =>
        (nc.1 + mc.1, nc.2.orElse fun _ => mc.2)
  | fuel + 1, .alt a b, s, prev => run fuel a s prev ++ run fuel b s prev
  | fuel + 1, .grp a, s, prev =>
    (run fuel a s prev).map fun nc => (nc.1, some (s.take nc.1))
  | fuel + 1, .star a lz, s, prev =>
    let step :=
      (run fuel a s prev).flatMap fun nc =>
        if nc.1 = 0 then []
        else
          (run fuel (.star a lz) (s.drop nc.1) (prevAfter s prev nc.1)).map
            fun mc => (nc.1 + mc.1, (none : Option JStr))
    if lz then (0, none) :: step else step ++ [(0, none)]

/-- Fuel ample for `run` on the source's patterns: each quantifier iteration
consumes at least one character, so depth is bounded by size × length. -/
def runFuel (re : RE) (len : Nat) : Nat := (len + 2) * (reSize re + 2)

/-- The character before position `i` of the subject. -/
def prevAt (full : JStr) (i : Nat) : Option Char :=
  if i = 0 then none else full.get? (i - 1)

/-- One global pass of `regex.exec` over the subject, as the source's
`while ((match = regex.exec(text)) !== null)` loops: repeatedly take the
leftmost match at or after the current position and resume after it.
Returns `(start, length, group 1)` triples. -/
def execFrom (re : RE) (full : JStr) : Nat → Nat → List (Nat × Nat × Option JStr)
  | _, 0 => []
  | i, fuel + 1 =>
    if full.length < i then []
    else
      match run (runFuel re full.length) re (full.drop i) (prevAt full i) with
      | [] => execFrom re full (i + 1) fuel
      | nc :: _ => (i, nc.1, nc.2) :: execFrom re full (i + max nc.1 1) fuel

/-- All matches of a global regex over the subject. -/
def execAll (re : RE) (full : JStr) : List (Nat × Nat × Option JStr) :=
  execFrom re full 0 (full.length + 1)

/-! ## JSON values and `JSON.parse`

Tool-result content is a JSON string; `parseToolContent` feeds it to
`JSON.parse` inside try/catch, modelled by the `Option`-returning parser
below.  Numbers are kept as exact rationals. -/

/-- A parsed JSON value. -/
inductive Json where
  | null
  | bool (b : Bool)
  | num (q : ℚ)
  | str (s : JStr)
  | arr (elems : List Json)
  | obj (fields : List (JStr × Json))

/-- `'\x7b'`, written by code so no brace appears in a literal. -/
def lbrace : Char := Char.ofNat 123

/-- `'\x7d'`. -/
def rbrace : Char := Char.ofNat 125

/-- JS property access `j[k]` on a parsed value: `none` models `undefined`.
`JSON.parse` lets a duplicated key overwrite an earlier one, hence the
last-occurrence lookup. -/
def Json.getField : Json → JStr → Option Json
  | .obj fields, k => (fields.reverse.find? (fun f => f.1 == k)).map (·.2)
  | _, _ => none

/-- JS truthiness of a parsed JSON value. -/
def Json.isTruthy : Json → Bool
  | .null => false
  | .bool b => b
  | .num q => decide (q ≠ 0)
  | .str s => !s.isEmpty
  | .arr _ => true
  | .obj _ => true

/-- JSON whitespace. -/
def skipWsJ (s : JStr) : JStr :=
  s.dropWhile (fun c => c == ' ' || c == '\t' || c == '\n' || c == '\r')

/-- Value of a hexadecimal digit. -/
def hexVal (c : Char) : Option Nat :=
  if '0' ≤ c && c ≤ '9' then some (c.toNat - 48)
  else if 'a' ≤ c && c ≤ 'f' then some (c.toNat - 87)
  else if 'A' ≤ c && c ≤ 'F' then some (c.toNat - 70)
  else none

/-- Parse the body of a JSON string (the opening quote already consumed);
returns the decoded characters and the remainder after the closing quote. -/
def parseJsonStrBody : Nat → JStr → Option (JStr × JStr)
  | 0, _ => none
  | _ + 1, [] => none
  | fuel + 1, c :: rest =>
    if c = '"' then some ([], rest)
    else if c = '\\' then
      match rest with
      | [] => none
      | e :: r2 =>
        let esc : Option Char :=
          if e = '"' then some '"'
          else if e = '\\' then some '\\'
          else if e = '/' then some '/'
          else if e = 'n' then some '\n'
          else if e = 't' then some '\t'
          else if e = 'r' then some '\r'
          else if e = 'b' then some '\x08'
          else if e = 'f' then some '\x0c'
          else none
        match esc with
        | some ch => (parseJsonStrBody fuel r2).map fun p => (ch :: p.1, p.2)
        | none =>
          if e = 'u' then
            match r2 with
            | h1 :: h2 :: h3 :: h4 :: r3 =>
              match hexVal h1, hexVal h2, hexVal h3, hexVal h4 with
              | some a, some b, some c2, some d =>
                (parseJsonStrBody fuel r3).map fun p =>
                  (Char.ofNat (((a * 16 + b) * 16 + c2) * 16 + d) :: p.1, p.2)
              | _, _, _, _ => none
            | _ => none
          else none
    else if c.toNat < 32 then none
    else (parseJsonStrBody fuel rest).map fun p => (c :: p.1, p.2)

/-- Parse a JSON number (sign, integer part, optional fraction, optional
exponent). -/
def parseJsonNum (s : JStr) : Option (ℚ × JStr) :=
  let sgnP : ℚ × JStr :=
    match s with
    | '-' :: r => (-1, r)
    | _ => (1, s)
  let s1 := sgnP.2
  let ds := s1.takeWhile isDigitJ
  if ds.isEmpty then none
  else
    let s2 := s1.drop ds.length
    let ip : ℚ := (digitsToNat ds : ℚ)
    let fracP : ℚ × JStr :=
      match s2 with
      | '.' :: r =>
        let fs := r.takeWhile isDigitJ
        if fs.isEmpty then (0, s2)
        else (qdiv (digitsToNat fs : ℚ) (qpow 10 fs.length), r.drop fs.length)
      | _ => (0, s2)
    let s3 := fracP.2
    let expP : Int × JStr :=
      match s3 with
      | c :: r =>
        if c = 'e' || c = 'E' then
          let esgnP : Int × JStr :=
            match r with
            | '+' :: rr => (1, rr)
            | '-' :: rr => (-1, rr)
            | _ => (1, r)
          let es := esgnP.2.takeWhile isDigitJ
          if es.isEmpty then (0, s3) else (esgnP.1 * (digitsToNat es : Int), esgnP.2.drop es.length)
        else (0, s3)
      | [] => (0, s3)
    some (qmul (qmul sgnP.1 (qadd ip fracP.1)) (qzpow 10 expP.1), expP.2)

/-- Recursive-descent JSON parser, packaged as a fuel-indexed triple
(value, array tail after `[`, object tail after the opening brace) so the
recursion is structural on the fuel and reduces inside the kernel. -/
def pj : Nat →
    (JStr → Option (Json × JStr)) ×
    (JStr → Option (List Json × JStr)) ×
    (JStr → Option (List (JStr × Json) × JStr))
  | 0 => (fun _ => none, fun _ => none, fun _ => none)
  | fuel + 1 =>
    let pv := (pj fuel).1
    let pa := (pj fuel).2.1
    let po := (pj fuel).2.2
    let value : JStr → Option (Json × JStr) := fun s0 =>
      let s := skipWsJ s0
      match s with
      | [] => none
      | c :: rest =>
        if c = '"' then
          (parseJsonStrBody (rest.length + 1) rest).map fun p => (Json.str p.1, p.2)
        else if c = '[' then
          let r1 := skipWsJ rest
          match r1 with
          | ']' :: r2 => some (Json.arr [], r2)
          | _ => (pa r1).map fun p => (Json.arr p.1, p.2)
        else if c = lbrace then
          let r1 := skipWsJ rest
          match r1 with
          | d :: _ =>
            if d = rbrace then some (Json.obj [], r1.tail)
            else (po r1).map fun p => (Json.obj p.1, p.2)
          | [] => none
        else if c = 't' then
          match rest with
          | 'r' :: 'u' :: 'e' :: r2 => some (Json.bool true, r2)
          | _ => none
        else if c = 'f' then
          match rest with
          | 'a' :: 'l' :: 's' :: 'e' :: r2 => some (Json.bool false, r2)
          | _ => none
        else if c = 'n' then
          match rest with
          | 'u' :: 'l' :: 'l' :: r2 => some (Json.null, r2)
          | _ => none
        else (parseJsonNum s).map fun p => (Json.num p.1, p.2)
    let arrTail : JStr → Option (List Json × JStr) := fun s =>
      match pv s with
      | none => none
      | some (j, r) =>
        match skipWsJ r with
        | ',' :: r2 => (pa r2).map fun p => (j :: p.1, p.2)
        | ']' :: r2 => some ([j], r2)
        | _ => none
    let objTail : JStr → Option (List (JStr × Json) × JStr) := fun s0 =>
      match skipWsJ s0 with
      | '"' :: r =>
        match parseJsonStrBody (r.length + 1) r with
        | none => none
        | some (k, r2) =>
          match skipWsJ r2 with
          | ':' :: r3 =>
            match pv r3 with
            | none => none
            | some (j, r4) =>
              match skipWsJ r4 with
              | ',' :: r5 => (po r5).map fun p => ((k, j) :: p.1, p.2)
              | d :: r5 => if d = rbrace then some ([(k, j)], r5) else none
              | [] => none
          | _ => none
      | _ => none
    (value, arrTail, objTail)

/-- `JSON.parse` inside try/catch: `none` is the thrown-`SyntaxError` case.
(A handful of malformed numerals JS rejects are accepted here; the parser
rejects nothing `JSON.parse` accepts on the ASCII inputs modelled.) -/
def jsonParse (s : JStr) : Option Json :=
  match (pj (s.length + 1)).1 s with
  | some (j, rest) => if (skipWsJ rest).isEmpty then some j else none
  | none => none

/-- Serializer used only to build concrete test inputs (so that no literal
brace appears in the file); fuel-indexed for kernel reduction. -/
def jsonRender : Nat → Json → JStr
  | 0, _ => []
  | fuel + 1, j =>
    match j with
    | .null => ("null").toList
    | .bool true => ("true").toList
    | .bool false => ("false").toList
    | .num q => jsNumToString q
    | .str s => '"' :: (s ++ ['"'])
    | .arr es => '[' :: (List.intercalate [','] (es.map (jsonRender fuel)) ++ [']'])
    | .obj fs =>
      lbrace ::
        (List.intercalate [',']
          (fs.map fun f => '"' :: (f.1 ++ '"' :: ':' :: jsonRender fuel f.2)) ++ [rbrace])

/-! ## Data model (types/validation.types.ts) -/

/-- Kinds of numeric claims. -/
inductive ClaimType where
  | count
  | percentage
  | average
  | sum
  | duration
  | ratio
deriving DecidableEq

/-- Entity kinds a claim can reference. -/
inductive EntityType where
  | device
  | stream
  | alert
  | group
  | job
  | firmware
  | other
deriving DecidableEq

/-- Severity levels of a validation error. -/
inductive ValidationSeverity where
  | critical
  | major
  | minor
  | none
deriving DecidableEq

/-- A numeric claim extracted from the response text. -/
structure NumericClaim where
  type : ClaimType
  entity : EntityType
  value : ℚ
  context : JStr
  lineNumber : Nat
  startIndex : Nat
  endIndex : Nat
  filter : Option JStr
  rawText : JStr
deriving DecidableEq

/-- A list of items extracted from the response. -/
structure ExtractedList where
  type : EntityType
  items : List JStr
  itemCount : Nat
  claimedCount : Option ℚ
  startIndex : Nat
  endIndex : Nat
  headerText : Option JStr
deriving DecidableEq

/-- Parse metadata. -/
structure ParseMetadata where
  totalLines : Nat
  totalChars : Nat
  hasNumericClaims : Bool
  hasLists : Bool
deriving DecidableEq

/-- The parser's output. -/
structure ParsedResponse where
  originalText : JStr
  claims : List NumericClaim
  lists : List ExtractedList
  metadata : ParseMetadata

/-- A tool result record from MCP execution.  `parsedContent` is the lazy
JSON-parse cache the validator fills in place; records built by the agent
arrive with it unset. -/
structure ToolResult where
  tool_use_id : JStr
  toolName : JStr
  content : JStr
  is_error : Bool := false
  parsedContent : Option Json := Option.none

/-- Ground truth recovered from a tool result. -/
structure GroundTruth where
  source : JStr
  toolUseId : Option JStr
  path : JStr
  rawData : Json
  extractionMethod : JStr

/-- Outcome of validating one claim. -/
structure ValidationResult where
  claim : NumericClaim
  isValid : Bool
  actualValue : Option ℚ
  claimedValue : ℚ
  error : Option ℚ
  errorPercent : Option ℚ
  severity : ValidationSeverity
  groundTruth : Option GroundTruth
  validationMethod : JStr

/-- Kinds of correction. -/
inductive CorrectionType where
  | replace
  | remove
  | add
  | truncate
  | regenerate
deriving DecidableEq

/-- A half-open span `[start, end)` in the original text. -/
structure Location where
  start : Nat
  «end» : Nat
deriving DecidableEq

/-- One edit to apply to the response text. -/
structure CorrectionAction where
  type : CorrectionType
  location : Location
  original : JStr
  corrected : JStr
  reason : JStr
  severity : ValidationSeverity
  relatedClaim : Option NumericClaim := Option.none
  relatedList : Option ExtractedList := Option.none
deriving DecidableEq

/-- Metadata counters of a corrected response. -/
structure CorrectionMetadata where
  originalLength : Nat
  correctedLength : Nat
  claimsValidated : Nat
  claimsCorrected : Nat
  listsValidated : Nat
  listsCorrected : Nat
deriving DecidableEq

/-- The engine's output. -/
structure CorrectedResponse where
  text : JStr
  correctionsMade : Bool
  corrections : List CorrectionAction
  severity : ValidationSeverity
  validationResults : List ValidationResult
  metadata : CorrectionMetadata

/-- Priority weights (reporting only). -/
structure PriorityWeights where
  deviceCount : Nat
  uptime : Nat
  percentage : Nat
  streamAggregation : Nat
  other : Nat

/-- Tunable validation policy. -/
structure ValidationConfig where
  countTolerance : ℚ
  percentageTolerance : ℚ
  strictMode : Bool
  autoCorrect : Bool
  blockOnCritical : Bool
  priorityWeights : PriorityWeights

/-- `DEFAULT_CONFIG` of math-validator.ts. -/
def DEFAULT_CONFIG : ValidationConfig where
  countTolerance := 0
  percentageTolerance := Rat.divInt 1 10
  strictMode := true
  autoCorrect := true
  blockOnCritical := true
  priorityWeights :=
    { deviceCount := 10, uptime := 8, percentage := 7, streamAggregation := 5, other := 3 }

/-! ## Response Parser (response-parser.ts)

Each entry of `CLAIM_PATTERNS` is transcribed below; comments give the
source regex. -/

/-- A claim-extraction pattern.  Every source `extractValue` parses capture
group 1 and every source `extractFilter` returns a constant, so they are
modelled as a function of the capture and an optional constant. -/
structure ClaimPattern where
  regex : RE
  claimType : ClaimType
  entityType : EntityType
  extractValue : Option JStr → ℚ
  extractFilter : Option JStr

/-- `parseInt(match[1], 10)`. -/
def pInt (cap : Option JStr) : ℚ := parseIntJS (cap.getD [])

/-- `parseFloat(match[1])`. -/
def pFloat (cap : Option JStr) : ℚ := parseFloatJS (cap.getD [])

/-- `parseFloat(match[1].replace(/,/g, ''))`. -/
def pSum (cap : Option JStr) : ℚ := parseFloatJS ((cap.getD []).filter (fun ch => !(ch == ',')))

/-- `(?:online|connected|active)` (case-insensitive). -/
def altOnline : RE := .alt (wordCI "online") (.alt (wordCI "connected") (wordCI "active"))

/-- `(?:offline|disconnected|inactive)`. -/
def altOffline : RE := .alt (wordCI "offline") (.alt (wordCI "disconnected") (wordCI "inactive"))

/-- `(?:connected|online|active)`. -/
def altConnected : RE := .alt (wordCI "connected") (.alt (wordCI "online") (wordCI "active"))

/-- `(?:disconnected|offline|inactive)`. -/
def altDisconnected : RE := .alt (wordCI "disconnected") (.alt (wordCI "offline") (wordCI "inactive"))

/-- `devices?` (case-insensitive). -/
def devicesWord : RE := .seq (wordCI "device") (reOpt (ci 's'))

/-- `\d+(?:\.\d+)?`. -/
def numRE : RE := .seq (rePlus digitCls) (reOpt (.seq (chr '.') (rePlus digitCls)))

/-- `\(​[^)]*\)`. -/
def parenGroup : RE :=
  seqList [chr '(', .star (.cls (fun c => !(c == ')'))) false, chr ')']

/-- The ordered claim-pattern catalog `CLAIM_PATTERNS`. -/
def CLAIM_PATTERNS : List ClaimPattern := [
  -- /\*?\*?(?:online|connected|active)\s*\([^)]*\)\s*:\*?\*?\s*(\d+)\s+devices?/gi
  { regex := seqList [reOpt (chr '*'), reOpt (chr '*'), altOnline, ws0, parenGroup, ws0,
      chr ':', reOpt (chr '*'), reOpt (chr '*'), ws0, .grp (rePlus digitCls), ws1, devicesWord],
    claimType := .count, entityType := .device, extractValue := pInt,
    extractFilter := some ("connected").toList },
  -- /\*?\*?(?:offline|disconnected|inactive)\s*\([^)]*\)\s*:\*?\*?\s*(\d+)\s+devices?/gi
  { regex := seqList [reOpt (chr '*'), reOpt (chr '*'), altOffline, ws0, parenGroup, ws0,
      chr ':', reOpt (chr '*'), reOpt (chr '*'), ws0, .grp (rePlus digitCls), ws1, devicesWord],
    claimType := .count, entityType := .device, extractValue := pInt,
    extractFilter := some ("disconnected").toList },
  -- /(?:connected|online|active)\s+devices?:\s*(\d+)/gi
  { regex := seqList [altConnected, ws1, devicesWord, chr ':', ws0, .grp (rePlus digitCls)],
    claimType := .count, entityType := .device, extractValue := pInt,
    extractFilter := some ("connected").toList },
  -- /(?:disconnected|offline|inactive)\s+devices?:\s*(\d+)/gi
  { regex := seqList [altDisconnected, ws1, devicesWord, chr ':', ws0, .grp (rePlus digitCls)],
    claimType := .count, entityType := .device, extractValue := pInt,
    extractFilter := some ("disconnected").toList },
  -- /(\d+)\s+(?:connected|online|active)\s+devices?/gi
  { regex := seqList [.grp (rePlus digitCls), ws1, altConnected, ws1, devicesWord],
    claimType := .count, entityType := .device, extractValue := pInt,
    extractFilter := some ("connected").toList },
  -- /(\d+)\s+(?:disconnected|offline|inactive)\s+devices?/gi
  { regex := seqList [.grp (rePlus digitCls), ws1, altDisconnected, ws1, devicesWord],
    claimType := .count, entityType := .device, extractValue := pInt,
    extractFilter := some ("disconnected").toList },
  -- /never\s+connected\s*:\s*(\d+)\s+devices?/gi
  { regex := seqList [wordCI "never", ws1, wordCI "connected", ws0, chr ':', ws0,
      .grp (rePlus digitCls), ws1, devicesWord],
    claimType := .count, entityType := .device, extractValue := pInt,
    extractFilter := some ("never_connected").toList },
  -- /\*?\*?total\s+devices?\s*:\*?\*?\s*(\d+)/gi
  { regex := seqList [reOpt (chr '*'), reOpt (chr '*'), wordCI "total", ws1, devicesWord,
      ws0, chr ':', reOpt (chr '*'), reOpt (chr '*'), ws0, .grp (rePlus digitCls)],
    claimType := .count, entityType := .device, extractValue := pInt,
    extractFilter := some ("total").toList },
  -- /(\d+(?:\.\d+)?)\s*%/g
  { regex := seqList [.grp numRE, ws0, chr '%'],
    claimType := .percentage, entityType := .other, extractValue := pFloat,
    extractFilter := Option.none },
  -- /uptime:\s*(\d+(?:\.\d+)?)\s*%/gi
  { regex := seqList [wordCI "uptime", chr ':', ws0, .grp numRE, ws0, chr '%'],
    claimType := .percentage, entityType := .device, extractValue := pFloat,
    extractFilter := some ("uptime").toList },
  -- /(\d+(?:\.\d+)?)\s*%\s+uptime/gi
  { regex := seqList [.grp numRE, ws0, chr '%', ws1, wordCI "uptime"],
    claimType := .percentage, entityType := .device, extractValue := pFloat,
    extractFilter := some ("uptime").toList },
  -- /(\d+)\s+streams?/gi
  { regex := seqList [.grp (rePlus digitCls), ws1, wordCI "stream", reOpt (ci 's')],
    claimType := .count, entityType := .stream, extractValue := pInt,
    extractFilter := Option.none },
  -- /(\d+)\s+alerts?/gi
  { regex := seqList [.grp (rePlus digitCls), ws1, wordCI "alert", reOpt (ci 's')],
    claimType := .count, entityType := .alert, extractValue := pInt,
    extractFilter := Option.none },
  -- /average:\s*(\d+(?:\.\d+)?)/gi
  { regex := seqList [wordCI "average", chr ':', ws0, .grp numRE],
    claimType := .average, entityType := .other, extractValue := pFloat,
    extractFilter := Option.none },
  -- /total:\s*(\d+(?:,\d{3})*(?:\.\d+)?)/gi
  { regex := seqList [wordCI "total", chr ':', ws0,
      .grp (seqList [rePlus digitCls,
        .star (seqList [chr ',', digitCls, digitCls, digitCls]) false,
        reOpt (.seq (chr '.') (rePlus digitCls))])],
    claimType := .sum, entityType := .other, extractValue := pSum,
    extractFilter := Option.none }
]

/-- `^(?:currently\s+)?(?:online|connected|disconnected|offline|active)\s+devices?:?\s*$`
(flags gim): a list-introducing header line. -/
def listHeaderRE : RE :=
  seqList [.bol, reOpt (.seq (wordCI "currently") ws1),
    .alt (wordCI "online") (.alt (wordCI "connected")
      (.alt (wordCI "disconnected") (.alt (wordCI "offline") (wordCI "active")))),
    ws1, devicesWord, reOpt (chr ':'), ws0, .eol]

/-- `^\s*\d+\.\s+(.+?)(?:\s*\(.*?\))?$` (flags gm): a numbered list item. -/
def numberedRE : RE :=
  seqList [.bol, ws0, rePlus digitCls, chr '.', ws1, .grp (lazyPlus dotCls),
    reOpt (seqList [ws0, chr '(', .star dotCls true, chr ')']), .eol]

/-- `^\s*[-*]\s+(.+?)(?:\s*\(.*?\))?$` (flags gm): a bulleted list item. -/
def bulletRE : RE :=
  seqList [.bol, ws0, .cls (fun c => c == '-' || c == '*'), ws1, .grp (lazyPlus dotCls),
    reOpt (seqList [ws0, chr '(', .star dotCls true, chr ')']), .eol]

/-- The line-number scan of `extractClaims`: accumulate `lines[i].length + 1`
until the running count exceeds `startIndex`; 0 if the loop never breaks. -/
def lineNumberOf (lines : List JStr) (startIndex : Nat) : Nat :=
  go 0 0 lines
where
  /-- Loop body. -/
  go (i charCount : Nat) : List JStr → Nat
    | [] => 0
    | l :: ls =>
      let cc := charCount + l.length + 1
      if startIndex < cc then i else go (i + 1) cc ls

/-- The claims one pattern contributes: every match of its global regex,
turned into a `NumericClaim` (`extractClaims`, inner loop). -/
def claimsOfPattern (pat : ClaimPattern) (text : JStr) (lines : List JStr) : List NumericClaim :=
  (execAll pat.regex text).map fun m =>
    let startIndex := m.1
    let raw := (text.drop startIndex).take m.2.1
    let ln := lineNumberOf lines startIndex
    { type := pat.claimType
      entity := pat.entityType
      value := pat.extractValue m.2.2
      context := lines.getD ln []
      lineNumber := ln
      startIndex := startIndex
      endIndex := startIndex + raw.length
      filter := pat.extractFilter
      rawText := raw }

/-- `extractClaims`: run every pattern over the whole text, pool the claims,
and sort by start offset (JS `sort` is stable). -/
def extractClaims (text : JStr) : List NumericClaim :=
  List.insertionSort (fun a b => a.startIndex ≤ b.startIndex)
    (CLAIM_PATTERNS.flatMap fun pat => claimsOfPattern pat text (splitOnChar '\n' text))

/-- `detectEntityTypeFromHeader`. -/
def detectEntityTypeFromHeader (headerText : JStr) : EntityType :=
  let lower := toLowerJ headerText
  if containsSub lower ("device").toList then .device
  else if containsSub lower ("stream").toList then .stream
  else if containsSub lower ("alert").toList then .alert
  else if containsSub lower ("group").toList then .group
  else if containsSub lower ("job").toList then .job
  else .other

/-- The consecutive-run scan of `extractListItemsAfterHeader`: keep items
while the gap to the previous kept item is under 200 characters. -/
def gapTake : Option Nat → List (Nat × JStr) → List JStr
  | _, [] => []
  | Option.none, (i, t) :: rest => t :: gapTake (some i) rest
  | some last, (i, t) :: rest =>
    if i - last < 200 then t :: gapTake (some i) rest else []

/-- `extractListItemsAfterHeader`: match numbered and bulleted item patterns
after the header, keep whichever style matched more (numbered on ties), and
truncate at the first 200-character gap. -/
def extractListItemsAfterHeader (text : JStr) (startIndex : Nat) : List JStr :=
  let textAfterHeader := text.drop startIndex
  let numberedItems := (execAll numberedRE textAfterHeader).map fun m =>
    (m.1, trimJS (m.2.2.getD []))
  let bulletItems := (execAll bulletRE textAfterHeader).map fun m =>
    (m.1, trimJS (m.2.2.getD []))
  let selectedItems :=
    if bulletItems.length ≤ numberedItems.length then numberedItems else bulletItems
  gapTake Option.none (List.insertionSort (fun a b => a.1 ≤ b.1) selectedItems)

/-- `calculateListLength`: distance from the header start to the end of the
last item's first occurrence. -/
def calculateListLength (items : List JStr) (text : JStr) (startIndex : Nat) : Nat :=
  match items.getLast? with
  | Option.none => 0
  | some lastItem =>
    match indexOfFrom text lastItem startIndex with
    | some li => (li - startIndex) + lastItem.length
    | Option.none => 0

/-- `extractLists`: for each header-line match, collect the items following
it; lists with no items are dropped. -/
def extractLists (text : JStr) : List ExtractedList :=
  (execAll listHeaderRE text).filterMap fun m =>
    let headerIndex := m.1
    let headerText := (text.drop headerIndex).take m.2.1
    let entityType := detectEntityTypeFromHeader headerText
    let items := extractListItemsAfterHeader text (headerIndex + headerText.length)
    if 0 < items.length then
      some { type := entityType
             items := items
             itemCount := items.length
             claimedCount := Option.none
             startIndex := headerIndex
             endIndex := headerIndex + headerText.length + calculateListLength items text headerIndex
             headerText := some headerText }
    else Option.none

/-- `ResponseParser.parse`. -/
def parse (responseText : JStr) : ParsedResponse :=
  let lines := splitOnChar '\n' responseText
  let claims := extractClaims responseText
  let lists := extractLists responseText
  { originalText := responseText
    claims := claims
    lists := lists
    metadata :=
      { totalLines := lines.length
        totalChars := responseText.length
        hasNumericClaims := 0 < claims.length
        hasLists := 0 < lists.length } }

/-! ## Ground-Truth Validator (math-validator.ts) -/

/-- `parseToolContent`: return the cache if truthy; never JSON-parse an
error-flagged record (its content is a plain error message); otherwise
`JSON.parse` inside try/catch.  The in-place cache write is invisible to a
pure reading (the cache, when set, holds exactly the parse result). -/
def parseToolContent (tr : ToolResult) : Option Json :=
  match tr.parsedContent with
  | some j =>
    if j.isTruthy then some j
    else if tr.is_error then Option.none else jsonParse tr.content
  | Option.none =>
    if tr.is_error then Option.none else jsonParse tr.content

/-- JS truthiness of an optional string (`undefined` and `''` are falsy). -/
def jsOptTruthy : Option JStr → Bool
  | Option.none => false
  | some s => !s.isEmpty

/-- A possibly-absent JSON value if it is truthy. -/
def jsTruthyOpt : Option Json → Option Json
  | some j => if j.isTruthy then some j else Option.none
  | Option.none => Option.none

/-- JS `a || b` over possibly-absent JSON values: the first truthy operand,
`none` when both are falsy or absent. -/
def jsOrJson (a b : Option Json) : Option Json :=
  match jsTruthyOpt a with
  | some j => some j
  | Option.none => jsTruthyOpt b

/-- Does a device-list payload's recorded query mention the filter
(`connection_status="f"` in either quote style)? -/
def queryMentionsFilter (data : Json) (f : JStr) : Bool :=
  match data.getField ("query").toList with
  | some (Json.str q) =>
    let lq := toLowerJ q
    containsSub lq (("connection_status=\"").toList ++ f ++ ("\"").toList) ||
      containsSub lq (("connection_status='").toList ++ f ++ ("'").toList)
  | _ => false

/-- Does the payload's `list` start with an item whose `connection_status`
equals the filter? -/
def firstItemMatchesFilter (data : Json) (f : JStr) : Bool :=
  match data.getField ("list").toList with
  | some (Json.arr (d :: _)) =>
    match d.getField ("connection_status").toList with
    | some (Json.str s) => s == f
    | _ => false
  | _ => false

/-- `findRelevantDeviceTool`.  With no (truthy) filter: the most recent
record.  Otherwise the source iterates `deviceTools.reverse()` — which
mutates the array in place — so its fallback `deviceTools[length - 1]`
is the last element of the reversed array, i.e. the oldest record; the
model preserves that quirk. -/
def findRelevantDeviceTool (deviceTools : List ToolResult) (filter : Option JStr) :
    Option ToolResult :=
  match filter with
  | Option.none => deviceTools.getLast?
  | some f =>
    if f.isEmpty then deviceTools.getLast?
    else
      let rev := deviceTools.reverse
      match rev.find? (fun tool =>
        match parseToolContent tool with
        | Option.none => false
        | some data => queryMentionsFilter data f || firstItemMatchesFilter data f) with
      | some t => some t
      | Option.none => rev.getLast?

/-- A ground-truth extraction strategy. -/
structure GroundTruthStrategy where
  name : JStr
  applicableTools : List JStr
  applicableClaimTypes : List ClaimType
  priority : Nat
  extract : NumericClaim → List ToolResult → Option GroundTruth

/-- Strategy 1, `device_count_from_list_devices`: count the (optionally
status-filtered) `list` of the most relevant `list_devices` result. -/
def strategyDeviceCount : GroundTruthStrategy where
  name := ("device_count_from_list_devices").toList
  applicableTools := [("list_devices").toList]
  applicableClaimTypes := [.count]
  priority := 10
  extract := fun claim toolResults =>
    if claim.entity ≠ .device then Option.none
    else
      let deviceTools := toolResults.filter (fun r => r.toolName == ("list_devices").toList)
      if deviceTools.isEmpty then Option.none
      else
        match findRelevantDeviceTool deviceTools claim.filter with
        | Option.none => Option.none
        | some relevantTool =>
          match parseToolContent relevantTool with
          | Option.none => Option.none
          | some data =>
            match data.getField ("list").toList with
            | some (Json.arr list) =>
              let filtered : Bool :=
                match claim.filter with
                | some f => !f.isEmpty && f ≠ ("total").toList
                | Option.none => false
              let deviceList :=
                match claim.filter with
                | some f =>
                  if filtered then
                    list.filter (fun d =>
                      match d.getField ("connection_status").toList with
                      | some (Json.str s) => s == f
                      | _ => false)
                  else list
                | Option.none => list
              some
                { source := ("list_devices").toList
                  toolUseId := some relevantTool.tool_use_id
                  path :=
                    match claim.filter with
                    | some f =>
                      if f.isEmpty then ("list.length").toList
                      else ("list.filter(connection_status=\"").toList ++ f ++ ("\").length").toList
                    | Option.none => ("list.length").toList
                  rawData := Json.arr deviceList
                  extractionMethod :=
                    ("Counted ").toList ++ natToStr deviceList.length ++
                      (" devices in list_devices result").toList }
            | _ => Option.none

/-- A field read as a nonzero number, the effect of
`data.k?.count || null` followed by the `=== 0` rejection (non-numeric
truthy fields make the later path walk fail, which the validator turns into
the same unverifiable result). -/
def nonzeroCountField (data : Json) (k : JStr) : Option ℚ :=
  match (data.getField k).bind (fun j => j.getField ("count").toList) with
  | some (Json.num q) => if q = 0 then Option.none else some q
  | _ => Option.none

/-- A field read as `data.k?.count || 0`. -/
def countFieldOr0 (data : Json) (k : JStr) : ℚ :=
  match (data.getField k).bind (fun j => j.getField ("count").toList) with
  | some (Json.num q) => q
  | _ => 0

/-- Strategy 2, `device_count_from_connection_report`: read the per-category
counts of a `get_connection_report` payload. -/
def strategyConnectionReport : GroundTruthStrategy where
  name := ("device_count_from_connection_report").toList
  applicableTools := [("get_connection_report").toList]
  applicableClaimTypes := [.count, .percentage]
  priority := 9
  extract := fun claim toolResults =>
    if claim.entity ≠ .device then Option.none
    else
      match toolResults.find? (fun r => r.toolName == ("get_connection_report").toList) with
      | Option.none => Option.none
      | some reportTool =>
        match parseToolContent reportTool with
        | Option.none => Option.none
        | some data =>
          let value : Option ℚ :=
            if claim.filter == some ("connected").toList then
              nonzeroCountField data ("connected").toList
            else if claim.filter == some ("disconnected").toList then
              nonzeroCountField data ("disconnected").toList
            else if claim.filter == some ("never_connected").toList then
              nonzeroCountField data ("never_connected").toList
            else if claim.filter == some ("total").toList || !(jsOptTruthy claim.filter) then
              let total := qadd (qadd (countFieldOr0 data ("connected").toList)
                (countFieldOr0 data ("disconnected").toList))
                (countFieldOr0 data ("never_connected").toList)
              if total = 0 then Option.none else some total
            else Option.none
          match value with
          | Option.none => Option.none
          | some _ =>
            some
              { source := ("get_connection_report").toList
                toolUseId := some reportTool.tool_use_id
                path :=
                  match claim.filter with
                  | some f => if f.isEmpty then ("total").toList else f ++ (".count").toList
                  | Option.none => ("total").toList
                rawData := data
                extractionMethod := ("Extracted count from connection report").toList }

/-- Strategy 3, `uptime_from_availability_report`: read
`uptime_percent || availability_percent` from a
`get_device_availability_report` payload. -/
def strategyUptime : GroundTruthStrategy where
  name := ("uptime_from_availability_report").toList
  applicableTools := [("get_device_availability_report").toList]
  applicableClaimTypes := [.percentage]
  priority := 10
  extract := fun claim toolResults =>
    if claim.filter ≠ some ("uptime").toList then Option.none
    else
      match toolResults.find? (fun r =>
        r.toolName == ("get_device_availability_report").toList) with
      | Option.none => Option.none
      | some reportTool =>
        match parseToolContent reportTool with
        | Option.none => Option.none
        | some data =>
          let uptimePercent : Option Json :=
            jsOrJson (data.getField ("uptime_percent").toList)
              (data.getField ("availability_percent").toList)
          match uptimePercent with
          | Option.none => Option.none
          | some _ =>
            some
              { source := ("get_device_availability_report").toList
                toolUseId := some reportTool.tool_use_id
                path := ("uptime_percent").toList
                rawData := data
                extractionMethod :=
                  ("Extracted uptime percentage from availability report").toList }

/-- `parseFloat` applied to a JSON field value (`item.value || item.avg || 0`
is a number or numeric string on the modelled payloads; a `NaN`-producing
value is modelled as 0, which no verified statement reaches). -/
def jsParseFloatOfJson : Json → ℚ
  | Json.num q => q
  | Json.str s => parseFloatJS s
  | _ => 0

/-- `item.value || item.k2 || 0` read for aggregation. -/
def aggField (item : Json) (k2 : JStr) : ℚ :=
  match jsOrJson (item.getField ("value").toList) (item.getField k2) with
  | some j => jsParseFloatOfJson j
  | Option.none => 0

/-- Strategy 4, `stream_aggregation_from_rollups`: recompute an average or
sum over a `get_stream_rollups` series. -/
def strategyStreamAgg : GroundTruthStrategy where
  name := ("stream_aggregation_from_rollups").toList
  applicableTools := [("get_stream_rollups").toList]
  applicableClaimTypes := [.average, .sum]
  priority := 8
  extract := fun claim toolResults =>
    if claim.entity ≠ .stream then Option.none
    else
      match toolResults.find? (fun r => r.toolName == ("get_stream_rollups").toList) with
      | Option.none => Option.none
      | some rollupTool =>
        match parseToolContent rollupTool with
        | Option.none => Option.none
        | some data =>
          match data.getField ("list").toList with
          | some (Json.arr list) =>
            let value : Option ℚ :=
              if claim.type = .average then
                let values := list.map (fun item => aggField item ("avg").toList)
                some (qdiv (values.foldl qadd 0) (values.length : ℚ))
              else if claim.type = .sum then
                some (list.foldl (fun acc item => qadd acc (aggField item ("sum").toList)) 0)
              else Option.none
            match value with
            | Option.none => Option.none
            | some _ =>
              some
                { source := ("get_stream_rollups").toList
                  toolUseId := some rollupTool.tool_use_id
                  path := ("list[].aggregation").toList
                  rawData := Json.arr list
                  extractionMethod := ("Calculated aggregation from stream rollups").toList }
          | _ => Option.none

/-- Strategy 5, `alert_count_from_list_alerts`: count the `list` of a
`list_alerts` result. -/
def strategyAlertCount : GroundTruthStrategy where
  name := ("alert_count_from_list_alerts").toList
  applicableTools := [("list_alerts").toList]
  applicableClaimTypes := [.count]
  priority := 9
  extract := fun claim toolResults =>
    if claim.entity ≠ .alert then Option.none
    else
      match toolResults.find? (fun r => r.toolName == ("list_alerts").toList) with
      | Option.none => Option.none
      | some alertTool =>
        match parseToolContent alertTool with
        | Option.none => Option.none
        | some data =>
          match data.getField ("list").toList with
          | some (Json.arr list) =>
            some
              { source := ("list_alerts").toList
                toolUseId := some alertTool.tool_use_id
                path := ("list.length").toList
                rawData := Json.arr list
                extractionMethod :=
                  ("Counted ").toList ++ natToStr list.length ++
                    (" alerts in list_alerts result").toList }
          | _ => Option.none

/-- `initializeStrategies`, in source order. -/
def strategies : List GroundTruthStrategy :=
  [strategyDeviceCount, strategyConnectionReport, strategyUptime,
   strategyStreamAgg, strategyAlertCount]

/-- `extractValueFromGroundTruth`: array length, direct number, or a
dot-path walk over an object (with the special `length` segment). -/
def walkPath : Json → List JStr → Option Json
  | j, [] => some j
  | j, part :: rest =>
    if part == ("length").toList then
      match j with
      | Json.arr l => walkPath (Json.num (l.length : ℚ)) rest
      | Json.obj _ =>
        match j.getField part with
        | some v => walkPath v rest
        | Option.none => Option.none
      | _ => Option.none
    else
      match j with
      | Json.obj _ =>
        match j.getField part with
        | some v => walkPath v rest
        | Option.none => Option.none
      | _ => Option.none

/-- `extractValueFromGroundTruth`. -/
def extractValueFromGroundTruth (gt : GroundTruth) : Option ℚ :=
  match gt.rawData with
  | Json.arr l => some (l.length : ℚ)
  | Json.num q => some q
  | Json.obj _ =>
    match walkPath gt.rawData (splitOnChar '.' gt.path) with
    | some (Json.num q) => some q
    | _ => Option.none
  | _ => Option.none

/-- `isWithinTolerance`. -/
def isWithinTolerance (cfg : ValidationConfig) (claimType : ClaimType)
    (error errorPercent : ℚ) : Bool :=
  if claimType = .count then decide (error ≤ cfg.countTolerance)
  else if claimType = .percentage then decide (error ≤ cfg.percentageTolerance)
  else decide (errorPercent ≤ cfg.percentageTolerance)

/-- `calculateSeverity`: fixed decision order, first match wins. -/
def calculateSeverity (claim : NumericClaim) (error errorPercent : ℚ) : ValidationSeverity :=
  if claim.entity = .device ∧ claim.type = .count ∧ 0 < error then .critical
  else if claim.filter = some ("uptime").toList ∨ (claim.type = .percentage ∧ 5 < errorPercent) then
    .major
  else if claim.type = .count ∧ 10 < errorPercent then .major
  else if 1 < errorPercent then .minor
  else .none

/-- The strategies applicable to a claim, sorted by descending priority
(stable, as JS `sort`). -/
def applicableStrategies (claim : NumericClaim) (toolResults : List ToolResult) :
    List GroundTruthStrategy :=
  List.insertionSort (fun a b => b.priority ≤ a.priority)
    (strategies.filter (fun s =>
      s.applicableClaimTypes.contains claim.type &&
        toolResults.any (fun tr => s.applicableTools.contains tr.toolName)))

/-- The `validate` strategy loop: first strategy whose `extract` returns
ground truth. -/
def findGroundTruth (claim : NumericClaim) (toolResults : List ToolResult) :
    Option GroundTruth :=
  (applicableStrategies claim toolResults).findSome? (fun s => s.extract claim toolResults)

/-- The result `validate` returns when no ground truth is available. -/
def unverifiableResult (claim : NumericClaim) : ValidationResult where
  claim := claim
  isValid := true
  actualValue := Option.none
  claimedValue := claim.value
  error := Option.none
  errorPercent := Option.none
  severity := .none
  groundTruth := Option.none
  validationMethod := ("no_ground_truth_available").toList

/-- `MathValidator.validate`. -/
def validate (cfg : ValidationConfig) (claim : NumericClaim) (toolResults : List ToolResult) :
    ValidationResult :=
  match findGroundTruth claim toolResults with
  | Option.none => unverifiableResult claim
  | some groundTruth =>
    match extractValueFromGroundTruth groundTruth with
    | Option.none => unverifiableResult claim
    | some actualValue =>
      let error := qabs (qsub claim.value actualValue)
      let errorPercent := if actualValue ≠ 0 then qmul (qdiv error actualValue) 100 else 0
      { claim := claim
        isValid := isWithinTolerance cfg claim.type error errorPercent
        actualValue := some actualValue
        claimedValue := claim.value
        error := some error
        errorPercent := some errorPercent
        severity := calculateSeverity claim error errorPercent
        groundTruth := some groundTruth
        validationMethod := ("validated_against_").toList ++ groundTruth.source }

/-- `MathValidator.validateAll`. -/
def validateAll (cfg : ValidationConfig) (claims : List NumericClaim)
    (toolResults : List ToolResult) : List ValidationResult :=
  claims.map (fun claim => validate cfg claim toolResults)

/-! ## Response Corrector (response-corrector.ts) -/

/-- The identifier of a claim kind, as interpolated by the source's
template literals. -/
def claimTypeName : ClaimType → JStr
  | .count => ("count").toList
  | .percentage => ("percentage").toList
  | .average => ("average").toList
  | .sum => ("sum").toList
  | .duration => ("duration").toList
  | .ratio => ("ratio").toList

/-- `severityWeight` (sorting). -/
def severityWeight : ValidationSeverity → Nat
  | .critical => 4
  | .major => 3
  | .minor => 2
  | .none => 1

/-- `getMaxSeverity`. -/
def getMaxSeverity (corrections : List CorrectionAction) : ValidationSeverity :=
  if corrections.isEmpty then .none
  else
    let severities := corrections.map (·.severity)
    if severities.contains .critical then .critical
    else if severities.contains .major then .major
    else if severities.contains .minor then .minor
    else .none

/-- Template-literal interpolation of a JSON field value. -/
def jsonDisplay : Json → JStr
  | Json.str s => s
  | Json.num q => jsNumToString q
  | Json.bool true => ("true").toList
  | Json.bool false => ("false").toList
  | Json.null => ("null").toList
  | Json.arr _ => []
  | Json.obj _ => ("[object Object]").toList

/-- `device.name || device.devConnectwareId || device.id || fallback`. -/
def deviceDisplayName (device : Json) (index : Nat) : JStr :=
  match jsOrJson (device.getField ("name").toList)
      (jsOrJson (device.getField ("devConnectwareId").toList)
        (device.getField ("id").toList)) with
  | some j => jsonDisplay j
  | Option.none => ("Device ").toList ++ natToStr (index + 1)

/-- One regenerated device line of `fixDeviceList`.  The source renders the
last-connect timestamp through `new Date(...).toLocaleDateString(...)`,
which depends on the runtime's locale and time zone; the model keeps the raw
timestamp text, a difference no verified statement observes. -/
def formatDeviceLine (index : Nat) (device : Json) : JStr :=
  let name := deviceDisplayName device index
  let dtype :=
    match jsOrJson (device.getField ("dpDeviceType").toList)
        (device.getField ("device_type").toList) with
    | some j => jsonDisplay j
    | Option.none => []
  let lastConnect :=
    match jsOrJson (device.getField ("dpLastConnectTime").toList)
        (device.getField ("last_connect").toList) with
    | some j => jsonDisplay j
    | Option.none => []
  let line := natToStr (index + 1) ++ ('.' :: ' ' :: name)
  let line := if dtype.isEmpty then line else line ++ (' ' :: '(' :: dtype) ++ [')']
  if lastConnect.isEmpty then line
  else line ++ (" - Last connected: ").toList ++ lastConnect

/-- `fixDeviceList`: regenerate the list body from the ground truth's raw
device array, truncated/extended to `correctCount` lines. -/
def fixDeviceList (list : ExtractedList) (correctCount : ℚ)
    (validation : ValidationResult) : Option CorrectionAction :=
  match validation.groundTruth with
  | Option.none => Option.none
  | some gt =>
    match gt.rawData with
    | Json.arr deviceData =>
      let correctDevices := deviceData.take (qfloor correctCount).toNat
      let formattedList :=
        List.intercalate ['\n'] (correctDevices.mapIdx fun i d => formatDeviceLine i d)
      some
        { type := .regenerate
          location :=
            { start := list.startIndex + (list.headerText.getD []).length
              «end» := list.endIndex }
          original := ("Listed ").toList ++ natToStr list.itemCount ++ (" devices").toList
          corrected := '\n' :: formattedList
          reason :=
            ("Device list had ").toList ++ natToStr list.itemCount ++
              (" items; regenerated from tool results").toList
          severity := .critical
          relatedClaim := Option.none
          relatedList := some list }
    | _ => Option.none

/-- `fixDeviceCountMismatches` (priority 1): replace the numeral inside the
claim's span, then regenerate a nearby device list whose item count
disagrees with the actual value. -/
def fixDeviceCountMismatches (parsed : ParsedResponse)
    (deviceCountFailures : List ValidationResult) : List CorrectionAction :=
  deviceCountFailures.flatMap fun failure =>
    let claim := failure.claim
    match failure.actualValue with
    | Option.none => []
    | some actualValue =>
      let countCorrection : CorrectionAction :=
        { type := .replace
          location := { start := claim.startIndex, «end» := claim.endIndex }
          original := claim.rawText
          corrected := jsReplaceFirst claim.rawText (jsNumToString claim.value)
            (jsNumToString actualValue)
          reason :=
            ("Device count was ").toList ++ jsNumToString claim.value ++
              (", actual count is ").toList ++ jsNumToString actualValue
          severity := failure.severity
          relatedClaim := some claim
          relatedList := Option.none }
      let listCorrections :=
        match parsed.lists.find? (fun list =>
          list.type == EntityType.device &&
            decide (natDist list.startIndex claim.startIndex < 500)) with
        | some relatedList =>
          if (relatedList.itemCount : ℚ) ≠ actualValue then
            match fixDeviceList relatedList actualValue failure with
            | some lc => [lc]
            | Option.none => []
          else []
        | Option.none => []
      countCorrection :: listCorrections

/-- `fixCountErrors` (priority 2): replace the numeral, or substitute a
bracketed placeholder when no ground truth was found. -/
def fixCountErrors (failures : List ValidationResult) : List CorrectionAction :=
  failures.map fun failure =>
    let claim := failure.claim
    match failure.actualValue with
    | Option.none =>
      { type := .remove
        location := { start := claim.startIndex, «end» := claim.endIndex }
        original := claim.rawText
        corrected := ("[count unavailable]").toList
        reason := ("Could not verify count from tool results").toList
        severity := failure.severity
        relatedClaim := some claim
        relatedList := Option.none }
    | some actualValue =>
      { type := .replace
        location := { start := claim.startIndex, «end» := claim.endIndex }
        original := claim.rawText
        corrected := jsReplaceFirst claim.rawText (jsNumToString claim.value)
          (jsNumToString actualValue)
        reason :=
          ("Claimed ").toList ++ jsNumToString claim.value ++
            (", actual value is ").toList ++ jsNumToString actualValue
        severity := failure.severity
        relatedClaim := some claim
        relatedList := Option.none }

/-- `fixPercentageErrors` (priority 3): replace with the actual value
formatted to one decimal place. -/
def fixPercentageErrors (failures : List ValidationResult) : List CorrectionAction :=
  failures.map fun failure =>
    let claim := failure.claim
    match failure.actualValue with
    | Option.none =>
      { type := .remove
        location := { start := claim.startIndex, «end» := claim.endIndex }
        original := claim.rawText
        corrected := ("[percentage unavailable]").toList
        reason := ("Could not verify percentage from tool results").toList
        severity := failure.severity
        relatedClaim := some claim
        relatedList := Option.none }
    | some actualValue =>
      { type := .replace
        location := { start := claim.startIndex, «end» := claim.endIndex }
        original := claim.rawText
        corrected := jsReplaceFirst claim.rawText (jsNumToString claim.value)
          (toFixedJS actualValue 1)
        reason :=
          ("Percentage was ").toList ++ jsNumToString claim.value ++
            (", actual is ").toList ++ toFixedJS actualValue 1
        severity := failure.severity
        relatedClaim := some claim
        relatedList := Option.none }

/-- `fixUptimeErrors` (priority 4): as percentages, but matching the `%`
suffix to avoid corrupting adjacent text. -/
def fixUptimeErrors (failures : List ValidationResult) : List CorrectionAction :=
  failures.map fun failure =>
    let claim := failure.claim
    match failure.actualValue with
    | Option.none =>
      { type := .remove
        location := { start := claim.startIndex, «end» := claim.endIndex }
        original := claim.rawText
        corrected := ("[uptime unavailable]").toList
        reason := ("Could not verify uptime from tool results").toList
        severity := failure.severity
        relatedClaim := some claim
        relatedList := Option.none }
    | some actualValue =>
      { type := .replace
        location := { start := claim.startIndex, «end» := claim.endIndex }
        original := claim.rawText
        corrected := jsReplaceFirst claim.rawText (jsNumToString claim.value ++ ['%'])
          (toFixedJS actualValue 1 ++ ['%'])
        reason :=
          ("Uptime was ").toList ++ jsNumToString claim.value ++
            (", actual is ").toList ++ toFixedJS actualValue 1
        severity := failure.severity
        relatedClaim := some claim
        relatedList := Option.none }

/-- `fixStreamAggregationErrors` (priority 5): two-decimal formatting; the
source omits `relatedClaim` here. -/
def fixStreamAggregationErrors (failures : List ValidationResult) : List CorrectionAction :=
  failures.map fun failure =>
    let claim := failure.claim
    match failure.actualValue with
    | Option.none =>
      { type := .remove
        location := { start := claim.startIndex, «end» := claim.endIndex }
        original := claim.rawText
        corrected := '[' :: (claimTypeName claim.type ++ (" unavailable]").toList)
        reason := ("Could not verify aggregation from tool results").toList
        severity := failure.severity
        relatedClaim := Option.none
        relatedList := Option.none }
    | some actualValue =>
      { type := .replace
        location := { start := claim.startIndex, «end» := claim.endIndex }
        original := claim.rawText
        corrected := jsReplaceFirst claim.rawText (jsNumToString claim.value)
          (toFixedJS actualValue 2)
        reason :=
          ("Aggregation was ").toList ++ jsNumToString claim.value ++
            (", actual is ").toList ++ toFixedJS actualValue 2
        severity := failure.severity
        relatedClaim := Option.none
        relatedList := Option.none }

/-- One splice of the commit loop:
`text.substring(0, start) + corrected + text.substring(end)`. -/
def spliceJS (text : JStr) (a : CorrectionAction) : JStr :=
  text.take a.location.start ++ a.corrected ++ text.drop a.location.«end»

/-- The commit algorithm: sort the pooled actions by descending span start
(stable, as JS `sort`) and splice each in sequence. -/
def commitCorrections (text : JStr) (corrections : List CorrectionAction) : JStr :=
  (List.insertionSort (fun a b => b.location.start ≤ a.location.start) corrections).foldl
    spliceJS text

/-- The failing validations in descending severity-weight order. -/
def failuresOf (validations : List ValidationResult) : List ValidationResult :=
  List.insertionSort (fun a b => severityWeight b.severity ≤ severityWeight a.severity)
    (validations.filter (fun v => !v.isValid))

/-- The five generation passes of `correctResponse`, pooled in source
order. -/
def buildCorrections (parsed : ParsedResponse) (failures : List ValidationResult) :
    List CorrectionAction :=
  fixDeviceCountMismatches parsed
      (failures.filter (fun f =>
        f.claim.entity == EntityType.device && f.claim.type == ClaimType.count)) ++
    fixCountErrors
      (failures.filter (fun f =>
        !(f.claim.entity == EntityType.device) && f.claim.type == ClaimType.count)) ++
    fixPercentageErrors (failures.filter (fun f => f.claim.type == ClaimType.percentage)) ++
    fixUptimeErrors (failures.filter (fun f => f.claim.filter == some ("uptime").toList)) ++
    fixStreamAggregationErrors (failures.filter (fun f => f.claim.entity == EntityType.stream))

/-- `ResponseCorrector.correctResponse`. -/
def correctResponse (parsed : ParsedResponse) (validations : List ValidationResult)
    (_toolResults : List ToolResult) : CorrectedResponse :=
  let failures := failuresOf validations
  if failures.isEmpty then
    { text := parsed.originalText
      correctionsMade := false
      corrections := []
      severity := .none
      validationResults := validations
      metadata :=
        { originalLength := parsed.originalText.length
          correctedLength := parsed.originalText.length
          claimsValidated := validations.length
          claimsCorrected := 0
          listsValidated := parsed.lists.length
          listsCorrected := 0 } }
  else
    let corrections :=
      List.insertionSort (fun a b => b.location.start ≤ a.location.start)
        (buildCorrections parsed failures)
    let correctedText := corrections.foldl spliceJS parsed.originalText
    { text := correctedText
      correctionsMade := true
      corrections := corrections
      severity := getMaxSeverity corrections
      validationResults := validations
      metadata :=
        { originalLength := parsed.originalText.length
          correctedLength := correctedText.length
          claimsValidated := validations.length
          claimsCorrected := corrections.length
          listsValidated := parsed.lists.length
          listsCorrected :=
            (corrections.filter (fun c =>
              c.type == CorrectionType.truncate || c.type == CorrectionType.regenerate)).length } }

/-! ## Concrete scenario inputs -/

/-- A `list_devices` item with `connection_status = "connected"`. -/
def connectedDevice : Json :=
  Json.obj [(("connection_status").toList, Json.str ("connected").toList)]

/-- Count-correction scenario corpus content: a `list_devices` payload whose
`list` holds 12 connected devices. -/
def c1Content : JStr :=
  jsonRender 6 (Json.obj [(("list").toList, Json.arr (List.replicate 12 connectedDevice))])

/-- The (non-error, uncached) `list_devices` record of the count-correction
scenario. -/
def c1Tool : ToolResult where
  tool_use_id := ("toolu_01").toList
  toolName := ("list_devices").toList
  content := c1Content

/-- The count-correction scenario's response text. -/
def c1Text : JStr := ("Connected devices: 9").toList

/-- The engine's output on the count-correction scenario. -/
def c1Out : CorrectedResponse :=
  correctResponse (parse c1Text) (validateAll DEFAULT_CONFIG (parse c1Text).claims [c1Tool])
    [c1Tool]

/-- Does a content string parse to an object whose `list` is exactly `n`
objects with `connection_status = "connected"`? -/
def contentHasConnectedList (content : JStr) (n : Nat) : Bool :=
  match jsonParse content with
  | some data =>
    match data.getField ("list").toList with
    | some (Json.arr l) =>
      l.length == n && l.all (fun d =>
        match d.getField ("connection_status").toList with
        | some (Json.str s) => s == ("connected").toList
        | _ => false)
    | _ => false
  | _ => false

/-- Percentage-normalization scenario corpus content: an availability report
with `uptime_percent` 98.7. -/
def c8Content : JStr :=
  jsonRender 6 (Json.obj [(("uptime_percent").toList, Json.num (Rat.divInt 987 10))])

/-- The availability-report record of the percentage scenario. -/
def c8Tool : ToolResult where
  tool_use_id := ("toolu_02").toList
  toolName := ("get_device_availability_report").toList
  content := c8Content

/-- The percentage scenario's response text. -/
def c8Text : JStr := ("Uptime: 98.73%").toList

/-- The engine's output on the percentage scenario. -/
def c8Out : CorrectedResponse :=
  correctResponse (parse c8Text) (validateAll DEFAULT_CONFIG (parse c8Text).claims [c8Tool])
    [c8Tool]

/-- Two actions' spans `[start, end)` do not overlap. -/
def spansDisjoint (a b : CorrectionAction) : Prop :=
  a.location.«end» ≤ b.location.start ∨ b.location.«end» ≤ a.location.start

/-- All spans in the list are pairwise non-overlapping. -/
def pairwiseDisjoint (l : List CorrectionAction) : Prop := l.Pairwise spansDisjoint

/-- Strictly-descending-by-start ordering: the right-to-left application
rule of the commit algorithm. -/
def strictDescByStart (l : List CorrectionAction) : Prop :=
  l.Pairwise (fun a b => b.location.start < a.location.start)

/-- An empty-span action inserting `"a"` at position 1. -/
def insertActA : CorrectionAction where
  type := .add
  location := { start := 1, «end» := 1 }
  original := []
  corrected := ['a']
  reason := []
  severity := .minor

/-- An empty-span action inserting `"b"` at position 1. -/
def insertActB : CorrectionAction where
  type := .add
  location := { start := 1, «end» := 1 }
  original := []
  corrected := ['b']
  reason := []
  severity := .minor

/-- A nonempty replace action on span `[0, 1)`. -/
def wAct1 : CorrectionAction where
  type := .replace
  location := { start := 0, «end» := 1 }
  original := ['h']
  corrected := ['H']
  reason := []
  severity := .minor

/-- A nonempty replace action on span `[2, 3)`. -/
def wAct2 : CorrectionAction where
  type := .replace
  location := { start := 2, «end» := 3 }
  original := ['l']
  corrected := ['L']
  reason := []
  severity := .minor

/-- A device-count claim (claimed 5, filter connected) used by witnesses. -/
def wClaim : NumericClaim where
  type := .count
  entity := .device
  value := 5
  context := []
  lineNumber := 0
  startIndex := 0
  endIndex := 20
  filter := some ("connected").toList
  rawText := ("Connected devices: 5").toList

/-- A sum claim on an entity for which the corpus `[c1Tool]` holds no
applicable tool. -/
def wSumClaim : NumericClaim where
  type := .sum
  entity := .other
  value := 1024
  context := []
  lineNumber := 0
  startIndex := 0
  endIndex := 11
  filter := Option.none
  rawText := ("Total: 1024").toList

/-- An error-flagged tool record whose content is a plain error message. -/
def wErrTool : ToolResult where
  tool_use_id := ("toolu_03").toList
  toolName := ("list_devices").toList
  content := ("Error: device cloud timed out").toList
  is_error := true

/-! # Theorems -/

/-- `qadd` is addition. -/
theorem qadd_eq (a b : ℚ) : qadd a b = a + b := by
  have ha : (a.den : ℚ) ≠ 0 := Nat.cast_ne_zero.mpr a.den_nz
  have hb : (b.den : ℚ) ≠ 0 := Nat.cast_ne_zero.mpr b.den_nz
  rw [qadd, Rat.divInt_eq_div]
  push_cast
  conv_rhs => rw [← Rat.num_div_den a, ← Rat.num_div_den b]
  field_simp

/-- `qsub` is subtraction. -/
theorem qsub_eq (a b : ℚ) : qsub a b = a - b := by
  have ha : (a.den : ℚ) ≠ 0 := Nat.cast_ne_zero.mpr a.den_nz
  have hb : (b.den : ℚ) ≠ 0 := Nat.cast_ne_zero.mpr b.den_nz
  rw [qsub, Rat.divInt_eq_div]
  push_cast
  conv_rhs => rw [← Rat.num_div_den a, ← Rat.num_div_den b]
  field_simp
  ring

/-- `qmul` is multiplication. -/
theorem qmul_eq (a b : ℚ) : qmul a b = a * b := by
  have ha : (a.den : ℚ) ≠ 0 := Nat.cast_ne_zero.mpr a.den_nz
  have hb : (b.den : ℚ) ≠ 0 := Nat.cast_ne_zero.mpr b.den_nz
  rw [qmul, Rat.divInt_eq_div]
  push_cast
  conv_rhs => rw [← Rat.num_div_den a, ← Rat.num_div_den b]
  field_simp

/-- `qdiv` is division (both give 0 at a zero divisor). -/
theorem qdiv_eq (a b : ℚ) : qdiv a b = a / b := by
  by_cases hb0 : b = 0
  · subst hb0
    show Rat.divInt (a.num * (0 : ℚ).den) (a.den * (0 : ℚ).num) = a / 0
    rw [div_zero]
    show Rat.divInt (a.num * 1) (a.den * 0) = 0
    rw [mul_zero, Rat.divInt_zero]
  · have ha : (a.den : ℚ) ≠ 0 := Nat.cast_ne_zero.mpr a.den_nz
    have hbd : (b.den : ℚ) ≠ 0 := Nat.cast_ne_zero.mpr b.den_nz
    have hbn : (b.num : ℚ) ≠ 0 := Int.cast_ne_zero.mpr (Rat.num_ne_zero.mpr hb0)
    rw [qdiv, Rat.divInt_eq_div]
    push_cast
    conv_rhs => rw [← Rat.num_div_den a, ← Rat.num_div_den b]
    rw [div_div_div_eq]

/-- `qabs` is the absolute value. -/
theorem qabs_eq (a : ℚ) : qabs a = |a| := by
  rw [qabs]
  split_ifs with h
  · exact (abs_of_neg h).symm
  · exact (abs_of_nonneg (le_of_not_lt h)).symm

/-- C1: for the input text `"Connected devices: 9"` and a corpus holding one
non-error `list_devices` result whose parsed JSON lists 12 objects with
`connection_status "connected"`, running parse, validateAll and
correctResponse yields an output containing `"Connected devices: 12"` with
exactly one correction, of type `replace` and severity `critical`. -/
theorem C1_count_correction_scenario :
    c1Tool.is_error = false ∧
    contentHasConnectedList c1Content 12 = true ∧
    containsSub c1Out.text ("Connected devices: 12").toList = true ∧
    c1Out.corrections.map (fun a => (a.type, a.severity)) =
      [(CorrectionType.replace, ValidationSeverity.critical)] := by
  decide

/-- C8 counterexample: with claim text `"Uptime: 98.73%"` and an
availability report whose `uptime_percent` is 98.7, the output does NOT
contain `"Uptime: 98.7%"` — the 0.03-point error is within the default
`percentageTolerance` of 0.1, so no correction fires. -/
theorem C8_counterexample :
    (match jsonParse c8Content with
      | some data =>
        match data.getField ("uptime_percent").toList with
        | some (Json.num q) => q == Rat.divInt 987 10
        | _ => false
      | _ => false) = true ∧
    containsSub c8Out.text ("Uptime: 98.7%").toList = false := by
  decide

/-- C8 amended: on that input the engine leaves the text unchanged (the
claim is within the default `percentageTolerance`, so it validates and no
rounding to one decimal occurs). -/
theorem C8_within_tolerance_scenario :
    c8Out.text = c8Text ∧
    c8Out.correctionsMade = false ∧
    containsSub c8Out.text ("Uptime: 98.73%").toList = true ∧
    (validateAll DEFAULT_CONFIG (parse c8Text).claims [c8Tool]).all (·.isValid) = true := by
  decide

/-- C6: if every validation passed, `correctResponse` returns the original
text character-for-character, with `correctionsMade = false`, no
corrections, severity `none`, and `correctedLength = originalLength`. -/
theorem C6_no_failures_frame (parsed : ParsedResponse) (validations : List ValidationResult)
    (tools : List ToolResult) (h : ∀ v ∈ validations, v.isValid = true) :
    (correctResponse parsed validations tools).text = parsed.originalText ∧
    (correctResponse parsed validations tools).correctionsMade = false ∧
    (correctResponse parsed validations tools).corrections = [] ∧
    (correctResponse parsed validations tools).severity = ValidationSeverity.none ∧
    (correctResponse parsed validations tools).metadata.correctedLength =
      (correctResponse parsed validations tools).metadata.originalLength := by
  have hfilter : validations.filter (fun v => !v.isValid) = [] := by
    rw [List.filter_eq_nil_iff]
    intro v hv
    simp [h v hv]
  have hfail : failuresOf validations = [] := by
    rw [failuresOf, hfilter]
    rfl
  simp only [correctResponse, hfail]
  simp

/-- Witness for C6 at a concrete parsed response and validation list. -/
theorem C6_no_failures_frame_witness :
    (correctResponse (parse c8Text) (validateAll DEFAULT_CONFIG (parse c8Text).claims [c8Tool])
      [c8Tool]).text = (parse c8Text).originalText := by
  exact (C6_no_failures_frame (parse c8Text)
    (validateAll DEFAULT_CONFIG (parse c8Text).claims [c8Tool]) [c8Tool]
    (by decide)).1

/-- When `validate` finds an actual value, its fields are exactly the
comparison formulas of the source (shared helper). -/
theorem validate_found (cfg : ValidationConfig) (claim : NumericClaim)
    (tools : List ToolResult) (a : ℚ)
    (h : (validate cfg claim tools).actualValue = some a) :
    (validate cfg claim tools).error = some (qabs (qsub claim.value a)) ∧
    (validate cfg claim tools).errorPercent =
      some (if a ≠ 0 then qmul (qdiv (qabs (qsub claim.value a)) a) 100 else 0) ∧
    (validate cfg claim tools).isValid =
      isWithinTolerance cfg claim.type (qabs (qsub claim.value a))
        (if a ≠ 0 then qmul (qdiv (qabs (qsub claim.value a)) a) 100 else 0) ∧
    (validate cfg claim tools).severity =
      calculateSeverity claim (qabs (qsub claim.value a))
        (if a ≠ 0 then qmul (qdiv (qabs (qsub claim.value a)) a) 100 else 0) := by
  rcases hg : findGroundTruth claim tools with _ | gt
  · simp only [validate, hg] at h
    simp [unverifiableResult] at h
  · simp only [validate, hg] at h ⊢
    rcases he : extractValueFromGroundTruth gt with _ | a'
    · simp only [he] at h
      simp [unverifiableResult] at h
    · simp only [he, Option.some.injEq] at h ⊢
      subst h
      exact ⟨rfl, rfl, rfl, rfl⟩

/-- C3: for every claim validated against found ground truth, the error is
`|claimed - actual|`, the error percentage is `error / actual * 100` (0 when
the actual value is 0), and validity is exactly the tolerance rule of the
claim's kind (inclusive boundaries: a count claim with
`error = countTolerance` is valid, with `countTolerance + 1` invalid, by the
`≤` in the rule). -/
theorem C3_tolerance_rules (cfg : ValidationConfig) (claim : NumericClaim)
    (tools : List ToolResult) (a : ℚ)
    (h : (validate cfg claim tools).actualValue = some a) :
    (validate cfg claim tools).error = some |claim.value - a| ∧
    (validate cfg claim tools).errorPercent =
      some (if a = 0 then 0 else |claim.value - a| / a * 100) ∧
    ((validate cfg claim tools).isValid = true ↔
      (if claim.type = ClaimType.count then |claim.value - a| ≤ cfg.countTolerance
       else if claim.type = ClaimType.percentage then
         |claim.value - a| ≤ cfg.percentageTolerance
       else
         (if a = 0 then 0 else |claim.value - a| / a * 100) ≤ cfg.percentageTolerance)) := by
  obtain ⟨he, hep, hv, _⟩ := validate_found cfg claim tools a h
  have hqe : qabs (qsub claim.value a) = |claim.value - a| := by rw [qsub_eq, qabs_eq]
  have hqp : (if a ≠ 0 then qmul (qdiv (qabs (qsub claim.value a)) a) 100 else 0) =
      (if a = 0 then 0 else |claim.value - a| / a * 100) := by
    rw [hqe]
    by_cases h0 : a = 0 <;> simp [h0, qmul_eq, qdiv_eq]
  refine ⟨by rw [he, hqe], by rw [hep, hqp], ?_⟩
  rw [hv, isWithinTolerance, hqp, hqe]
  split_ifs <;> simp

/-- Witness for C3: claimed 9 against 12 connected devices gives error 3,
errorPercent 25, and an invalid verdict under the default tolerances. -/
theorem C3_tolerance_rules_witness :
    (validate DEFAULT_CONFIG ((parse c1Text).claims.getD 0 wClaim) [c1Tool]).error = some 3 ∧
    (validate DEFAULT_CONFIG ((parse c1Text).claims.getD 0 wClaim) [c1Tool]).isValid = false := by
  obtain ⟨he, _, hiff⟩ := C3_tolerance_rules DEFAULT_CONFIG
    ((parse c1Text).claims.getD 0 wClaim) [c1Tool] 12 (by decide)
  have hval : ((parse c1Text).claims.getD 0 wClaim).value = 9 := by decide
  have htype : ((parse c1Text).claims.getD 0 wClaim).type = ClaimType.count := by decide
  rw [hval] at he hiff
  refine ⟨by rw [he]; norm_num, ?_⟩
  rw [htype] at hiff
  simp only [if_pos rfl] at hiff
  rw [Bool.eq_false_iff]
  intro hv
  have h3 := hiff.mp hv
  rw [show DEFAULT_CONFIG.countTolerance = 0 from rfl] at h3
  norm_num at h3

/-- C4: for every claim validated against found ground truth, the severity
is the source's first-match-wins decision order: device-count claims with
any nonzero error are `critical` regardless of the percentage error;
otherwise "uptime" claims, or percentage claims over 5% error, are `major`;
otherwise count claims over 10% are `major`; otherwise over 1% is `minor`;
otherwise `none`. -/
theorem C4_severity_order (cfg : ValidationConfig) (claim : NumericClaim)
    (tools : List ToolResult) (a : ℚ)
    (h : (validate cfg claim tools).actualValue = some a) :
    (validate cfg claim tools).severity =
      (if claim.entity = EntityType.device ∧ claim.type = ClaimType.count ∧
          0 < |claim.value - a| then ValidationSeverity.critical
       else if claim.filter = some ("uptime").toList ∨
          (claim.type = ClaimType.percentage ∧
            5 < (if a = 0 then 0 else |claim.value - a| / a * 100)) then
         ValidationSeverity.major
       else if claim.type = ClaimType.count ∧
          10 < (if a = 0 then 0 else |claim.value - a| / a * 100) then
         ValidationSeverity.major
       else if 1 < (if a = 0 then 0 else |claim.value - a| / a * 100) then
         ValidationSeverity.minor
       else ValidationSeverity.none) := by
  obtain ⟨_, _, _, hs⟩ := validate_found cfg claim tools a h
  have hqe : qabs (qsub claim.value a) = |claim.value - a| := by rw [qsub_eq, qabs_eq]
  have hqp : (if a ≠ 0 then qmul (qdiv (qabs (qsub claim.value a)) a) 100 else 0) =
      (if a = 0 then 0 else |claim.value - a| / a * 100) := by
    rw [hqe]
    by_cases h0 : a = 0 <;> simp [h0, qmul_eq, qdiv_eq]
  rw [hs, calculateSeverity, hqp, hqe]

/-- Witness for C4: claimed 9 against 12 (25% error) on a device-count claim
is `critical`. -/
theorem C4_severity_order_witness :
    (validate DEFAULT_CONFIG ((parse c1Text).claims.getD 0 wClaim) [c1Tool]).severity =
      ValidationSeverity.critical := by
  rw [C4_severity_order DEFAULT_CONFIG ((parse c1Text).claims.getD 0 wClaim) [c1Tool] 12
    (by decide)]
  have hval : ((parse c1Text).claims.getD 0 wClaim).value = 9 := by decide
  have htype : ((parse c1Text).claims.getD 0 wClaim).type = ClaimType.count := by decide
  have hent : ((parse c1Text).claims.getD 0 wClaim).entity = EntityType.device := by decide
  simp only [hval, htype, hent]
  norm_num

/-- Membership in the sorted failure list means membership in the
validations with a failed verdict (shared helper). -/
theorem mem_failuresOf {v : ValidationResult} {validations : List ValidationResult}
    (h : v ∈ failuresOf validations) : v ∈ validations ∧ v.isValid = false := by
  rw [failuresOf] at h
  have hm := (List.perm_insertionSort
    (fun a b => severityWeight b.severity ≤ severityWeight a.severity)
    (validations.filter (fun x => !x.isValid))).mem_iff.mp h
  rw [List.mem_filter] at hm
  exact ⟨hm.1, by simpa using hm.2⟩

/-- `fixDeviceList` only ever emits a `regenerate` action (shared helper). -/
theorem fixDeviceList_regenerate {list : ExtractedList} {cc : ℚ} {v : ValidationResult}
    {a : CorrectionAction} (h : fixDeviceList list cc v = some a) :
    a.type = CorrectionType.regenerate := by
  unfold fixDeviceList at h
  split at h
  · simp at h
  · split at h
    · simp only [Option.some.injEq] at h
      subst h
      rfl
    · simp at h

/-- `fixCountErrors` on failures with known actual values only emits
`replace` actions (shared helper). -/
theorem fixCountErrors_replace {failures : List ValidationResult}
    (hall : ∀ f ∈ failures, f.actualValue ≠ Option.none) :
    ∀ a ∈ fixCountErrors failures, a.type = CorrectionType.replace := by
  intro a ha
  unfold fixCountErrors at ha
  rw [List.mem_map] at ha
  obtain ⟨f, hf, hfa⟩ := ha
  dsimp only at hfa
  rcases hav : f.actualValue with _ | av
  · exact absurd hav (hall f hf)
  · rw [hav] at hfa
    subst hfa
    rfl

/-- `fixPercentageErrors` analogue of `fixCountErrors_replace`. -/
theorem fixPercentageErrors_replace {failures : List ValidationResult}
    (hall : ∀ f ∈ failures, f.actualValue ≠ Option.none) :
    ∀ a ∈ fixPercentageErrors failures, a.type = CorrectionType.replace := by
  intro a ha
  unfold fixPercentageErrors at ha
  rw [List.mem_map] at ha
  obtain ⟨f, hf, hfa⟩ := ha
  dsimp only at hfa
  rcases hav : f.actualValue with _ | av
  · exact absurd hav (hall f hf)
  · rw [hav] at hfa
    subst hfa
    rfl

/-- `fixUptimeErrors` analogue of `fixCountErrors_replace`. -/
theorem fixUptimeErrors_replace {failures : List ValidationResult}
    (hall : ∀ f ∈ failures, f.actualValue ≠ Option.none) :
    ∀ a ∈ fixUptimeErrors failures, a.type = CorrectionType.replace := by
  intro a ha
  unfold fixUptimeErrors at ha
  rw [List.mem_map] at ha
  obtain ⟨f, hf, hfa⟩ := ha
  dsimp only at hfa
  rcases hav : f.actualValue with _ | av
  · exact absurd hav (hall f hf)
  · rw [hav] at hfa
    subst hfa
    rfl

/-- `fixStreamAggregationErrors` analogue of `fixCountErrors_replace`. -/
theorem fixStreamAggregationErrors_replace {failures : List ValidationResult}
    (hall : ∀ f ∈ failures, f.actualValue ≠ Option.none) :
    ∀ a ∈ fixStreamAggregationErrors failures, a.type = CorrectionType.replace := by
  intro a ha
  unfold fixStreamAggregationErrors at ha
  rw [List.mem_map] at ha
  obtain ⟨f, hf, hfa⟩ := ha
  dsimp only at hfa
  rcases hav : f.actualValue with _ | av
  · exact absurd hav (hall f hf)
  · rw [hav] at hfa
    subst hfa
    rfl

/-- `fixDeviceCountMismatches` on failures with known actual values emits
only `replace` and `regenerate` actions (shared helper). -/
theorem fixDeviceCountMismatches_types {parsed : ParsedResponse}
    {failures : List ValidationResult}
    (hall : ∀ f ∈ failures, f.actualValue ≠ Option.none) :
    ∀ a ∈ fixDeviceCountMismatches parsed failures,
      a.type = CorrectionType.replace ∨ a.type = CorrectionType.regenerate := by
  intro a ha
  unfold fixDeviceCountMismatches at ha
  rw [List.mem_flatMap] at ha
  obtain ⟨f, hf, ha⟩ := ha
  dsimp only at ha
  rcases hav : f.actualValue with _ | av
  · exact absurd hav (hall f hf)
  · rw [hav] at ha
    rw [List.mem_cons] at ha
    rcases ha with rfl | ha
    · left
      rfl
    · rcases hfind : parsed.lists.find? (fun list =>
        list.type == EntityType.device &&
          decide (natDist list.startIndex f.claim.startIndex < 500)) with _ | rl
      · rw [hfind] at ha
        simp at ha
      · rw [hfind] at ha
        dsimp only at ha
        split_ifs at ha with hne
        · rcases hfx : fixDeviceList rl av f with _ | lc
          · rw [hfx] at ha
            simp at ha
          · rw [hfx] at ha
            rw [List.mem_singleton] at ha
            subst ha
            right
            exact fixDeviceList_regenerate hfx
        · simp at ha

/-- C10: `validate` never marks a claim invalid without an actual value, so
when the corrector is fed results produced by `validate`, its bracketed
placeholder (`remove`) branches are unreachable and every emitted action is
a `replace` or a `regenerate`. -/
theorem C10_placeholder_branches_unreachable :
    (∀ (cfg : ValidationConfig) (claim : NumericClaim) (tools : List ToolResult),
      (validate cfg claim tools).isValid = false →
      (validate cfg claim tools).actualValue ≠ Option.none) ∧
    (∀ (parsed : ParsedResponse) (validations : List ValidationResult)
        (tools : List ToolResult),
      (∀ v ∈ validations, v.isValid = false → v.actualValue ≠ Option.none) →
      ∀ a ∈ (correctResponse parsed validations tools).corrections,
        a.type = CorrectionType.replace ∨ a.type = CorrectionType.regenerate) := by
  constructor
  · intro cfg claim tools hv
    rcases hg : findGroundTruth claim tools with _ | gt
    · simp only [validate, hg] at hv
      simp [unverifiableResult] at hv
    · simp only [validate, hg] at hv ⊢
      rcases he : extractValueFromGroundTruth gt with _ | av
      · simp only [he] at hv
        simp [unverifiableResult] at hv
      · simp only [he]
        simp
  · intro parsed validations tools hinv a ha
    have hallf : ∀ f ∈ failuresOf validations, f.actualValue ≠ Option.none := by
      intro f hf
      exact hinv f (mem_failuresOf hf).1 (mem_failuresOf hf).2
    by_cases hE : (failuresOf validations).isEmpty
    · simp only [correctResponse, hE, if_true] at ha
      simp at ha
    · simp only [correctResponse, hE, Bool.false_eq_true, if_false] at ha
      have hmem := (List.perm_insertionSort
        (fun a b => b.location.start ≤ a.location.start)
        (buildCorrections parsed (failuresOf validations))).mem_iff.mp ha
      unfold buildCorrections at hmem
      simp only [List.mem_append] at hmem
      rcases hmem with (((h1 | h2) | h3) | h4) | h5
      · exact fixDeviceCountMismatches_types
          (fun f hf => hallf f (List.mem_filter.mp hf).1) a h1
      · exact Or.inl (fixCountErrors_replace
          (fun f hf => hallf f (List.mem_filter.mp hf).1) a h2)
      · exact Or.inl (fixPercentageErrors_replace
          (fun f hf => hallf f (List.mem_filter.mp hf).1) a h3)
      · exact Or.inl (fixUptimeErrors_replace
          (fun f hf => hallf f (List.mem_filter.mp hf).1) a h4)
      · exact Or.inl (fixStreamAggregationErrors_replace
          (fun f hf => hallf f (List.mem_filter.mp hf).1) a h5)

/-- Witness for C10 on the count-correction scenario. -/
theorem C10_placeholder_branches_unreachable_witness :
    (validate DEFAULT_CONFIG ((parse c1Text).claims.getD 0 wClaim) [c1Tool]).actualValue ≠
      Option.none ∧
    ∀ a ∈ c1Out.corrections,
      a.type = CorrectionType.replace ∨ a.type = CorrectionType.regenerate := by
  constructor
  · exact C10_placeholder_branches_unreachable.1 DEFAULT_CONFIG
      ((parse c1Text).claims.getD 0 wClaim) [c1Tool] (by decide)
  · exact C10_placeholder_branches_unreachable.2 (parse c1Text)
      (validateAll DEFAULT_CONFIG (parse c1Text).claims [c1Tool]) [c1Tool] (by decide)

/-- C5: a claim for which no applicable strategy's tool is present in the
corpus validates to the unverifiable result (valid, null actual value, no
error, severity none); and a valid result contributes nothing to the
corrector's output — dropping it changes neither text nor corrections, so
no `CorrectionAction` is ever emitted for such a claim. -/
theorem C5_unverifiable_claim_safety :
    (∀ (cfg : ValidationConfig) (claim : NumericClaim) (tools : List ToolResult),
      (∀ s ∈ strategies, claim.type ∈ s.applicableClaimTypes →
        ∀ tr ∈ tools, ¬tr.toolName ∈ s.applicableTools) →
      validate cfg claim tools = unverifiableResult claim) ∧
    (∀ (parsed : ParsedResponse) (tools : List ToolResult) (v : ValidationResult)
        (l1 l2 : List ValidationResult), v.isValid = true →
      (correctResponse parsed (l1 ++ v :: l2) tools).text =
        (correctResponse parsed (l1 ++ l2) tools).text ∧
      (correctResponse parsed (l1 ++ v :: l2) tools).corrections =
        (correctResponse parsed (l1 ++ l2) tools).corrections) := by
  constructor
  · intro cfg claim tools habs
    have hfilt : strategies.filter (fun s =>
        s.applicableClaimTypes.contains claim.type &&
          tools.any (fun tr => s.applicableTools.contains tr.toolName)) = [] := by
      rw [List.filter_eq_nil_iff]
      intro s hs
      intro hpred
      rw [Bool.and_eq_true] at hpred
      obtain ⟨hct, hany⟩ := hpred
      rw [List.any_eq_true] at hany
      obtain ⟨tr, htr, htool⟩ := hany
      have hct' : claim.type ∈ s.applicableClaimTypes := by simpa using hct
      have htool' : tr.toolName ∈ s.applicableTools := by simpa using htool
      exact habs s hs hct' tr htr htool'
    have hfg : findGroundTruth claim tools = Option.none := by
      rw [findGroundTruth, applicableStrategies, hfilt]
      rfl
    simp only [validate, hfg]
  · intro parsed tools v l1 l2 hv
    have hfe : failuresOf (l1 ++ v :: l2) = failuresOf (l1 ++ l2) := by
      rw [failuresOf, failuresOf, List.filter_append, List.filter_append, List.filter_cons]
      simp [hv]
    by_cases hE : (failuresOf (l1 ++ l2)).isEmpty <;>
      constructor <;> simp only [correctResponse, hfe, hE, if_true, Bool.false_eq_true,
        if_false]

/-- Witness for C5: a sum claim whose only applicable tool
(`get_stream_rollups`) is absent from the corpus `[c1Tool]`. -/
theorem C5_unverifiable_claim_safety_witness :
    validate DEFAULT_CONFIG wSumClaim [c1Tool] = unverifiableResult wSumClaim ∧
    (correctResponse (parse c1Text) ([] ++ unverifiableResult wSumClaim :: []) [c1Tool]).text =
      (correctResponse (parse c1Text) ([] ++ []) [c1Tool]).text := by
  constructor
  · exact C5_unverifiable_claim_safety.1 DEFAULT_CONFIG wSumClaim [c1Tool] (by decide)
  · exact (C5_unverifiable_claim_safety.2 (parse c1Text) [c1Tool]
      (unverifiableResult wSumClaim) [] [] (by decide)).1

/-- A list contains the element its `getLast?` returns (shared helper). -/
theorem mem_of_getLast?_eq_some {α : Type} {l : List α} {x : α}
    (h : l.getLast? = some x) : x ∈ l := by
  obtain ⟨hne, hx⟩ := List.mem_getLast?_eq_getLast (Option.mem_def.mpr h)
  exact hx ▸ List.getLast_mem hne

/-- `findRelevantDeviceTool` only returns records from its input list
(shared helper). -/
theorem findRelevantDeviceTool_mem {dts : List ToolResult} {f : Option JStr} {rt : ToolResult}
    (h : findRelevantDeviceTool dts f = some rt) : rt ∈ dts := by
  unfold findRelevantDeviceTool at h
  rcases f with _ | fs
  · exact mem_of_getLast?_eq_some h
  · dsimp only at h
    split_ifs at h
    · exact mem_of_getLast?_eq_some h
    · split at h
      · rename_i t heq
        simp only [Option.some.injEq] at h
        subst h
        exact (List.mem_reverse).mp (List.mem_of_find?_eq_some heq)
      · exact (List.mem_reverse).mp (mem_of_getLast?_eq_some h)

/-- Strategy 1 yields nothing when every record's content is unparsable
(shared helper). -/
theorem strategyDeviceCount_none (claim : NumericClaim) (tools : List ToolResult)
    (h : ∀ tr ∈ tools, parseToolContent tr = Option.none) :
    strategyDeviceCount.extract claim tools = Option.none := by
  simp only [strategyDeviceCount]
  split
  · rfl
  · split
    · rfl
    · split
      · rfl
      · rename_i rt heq
        have hrt : rt ∈ tools := (List.mem_filter.mp (findRelevantDeviceTool_mem heq)).1
        rw [h rt hrt]

/-- Strategy 2 analogue of `strategyDeviceCount_none`. -/
theorem strategyConnectionReport_none (claim : NumericClaim) (tools : List ToolResult)
    (h : ∀ tr ∈ tools, parseToolContent tr = Option.none) :
    strategyConnectionReport.extract claim tools = Option.none := by
  simp only [strategyConnectionReport]
  split
  · rfl
  · split
    · rfl
    · rename_i rt heq
      rw [h rt (List.mem_of_find?_eq_some heq)]

/-- Strategy 3 analogue of `strategyDeviceCount_none`. -/
theorem strategyUptime_none (claim : NumericClaim) (tools : List ToolResult)
    (h : ∀ tr ∈ tools, parseToolContent tr = Option.none) :
    strategyUptime.extract claim tools = Option.none := by
  simp only [strategyUptime]
  split
  · rfl
  · split
    · rfl
    · rename_i rt heq
      rw [h rt (List.mem_of_find?_eq_some heq)]

/-- Strategy 4 analogue of `strategyDeviceCount_none`. -/
theorem strategyStreamAgg_none (claim : NumericClaim) (tools : List ToolResult)
    (h : ∀ tr ∈ tools, parseToolContent tr = Option.none) :
    strategyStreamAgg.extract claim tools = Option.none := by
  simp only [strategyStreamAgg]
  split
  · rfl
  · split
    · rfl
    · rename_i rt heq
      rw [h rt (List.mem_of_find?_eq_some heq)]

/-- Strategy 5 analogue of `strategyDeviceCount_none`. -/
theorem strategyAlertCount_none (claim : NumericClaim) (tools : List ToolResult)
    (h : ∀ tr ∈ tools, parseToolContent tr = Option.none) :
    strategyAlertCount.extract claim tools = Option.none := by
  simp only [strategyAlertCount]
  split
  · rfl
  · split
    · rfl
    · rename_i rt heq
      rw [h rt (List.mem_of_find?_eq_some heq)]

/-- C9: error-flagged records are never JSON-parsed (the parse returns null
outright), records whose content is not valid JSON parse to null without an
exception (the embedding is a total function into `Option`), and when every
record of the corpus is unparsable, validation still completes normally with
the unverifiable result — no strategy derives ground truth from such
records. -/
theorem C9_unparsable_content_safety :
    (∀ tr : ToolResult, tr.parsedContent = Option.none → tr.is_error = true →
      parseToolContent tr = Option.none) ∧
    (∀ tr : ToolResult, tr.parsedContent = Option.none →
      jsonParse tr.content = Option.none → parseToolContent tr = Option.none) ∧
    (∀ (cfg : ValidationConfig) (claim : NumericClaim) (tools : List ToolResult),
      (∀ tr ∈ tools, parseToolContent tr = Option.none) →
      validate cfg claim tools = unverifiableResult claim) := by
  refine ⟨?_, ?_, ?_⟩
  · intro tr hpc hie
    simp [parseToolContent, hpc, hie]
  · intro tr hpc hjp
    simp [parseToolContent, hpc, hjp]
  · intro cfg claim tools hnone
    have hext : ∀ s ∈ applicableStrategies claim tools, s.extract claim tools = Option.none := by
      intro s hs
      have hs' : s ∈ strategies := by
        rw [applicableStrategies] at hs
        have hm := (List.perm_insertionSort (fun a b => b.priority ≤ a.priority)
          (strategies.filter (fun s =>
            s.applicableClaimTypes.contains claim.type &&
              tools.any (fun tr => s.applicableTools.contains tr.toolName)))).mem_iff.mp hs
        exact (List.mem_filter.mp hm).1
      fin_cases hs'
      · exact strategyDeviceCount_none claim tools hnone
      · exact strategyConnectionReport_none claim tools hnone
      · exact strategyUptime_none claim tools hnone
      · exact strategyStreamAgg_none claim tools hnone
      · exact strategyAlertCount_none claim tools hnone
    have hfg : findGroundTruth claim tools = Option.none := by
      rw [findGroundTruth, List.findSome?_eq_none_iff]
      exact hext
    simp only [validate, hfg]

/-- Witness for C9: an error-flagged `list_devices` record with a plain
error message is never parsed and leaves a count claim unverifiable. -/
theorem C9_unparsable_content_safety_witness :
    parseToolContent wErrTool = Option.none ∧
    validate DEFAULT_CONFIG wClaim [wErrTool] = unverifiableResult wClaim := by
  constructor
  · exact C9_unparsable_content_safety.1 wErrTool rfl rfl
  · exact C9_unparsable_content_safety.2.2 DEFAULT_CONFIG wClaim [wErrTool]
      (by
        intro tr htr
        rw [List.mem_singleton] at htr
        subst htr
        exact C9_unparsable_content_safety.1 wErrTool rfl rfl)

/-- The corrector's sort is non-strictly descending by span start (shared
helper). -/
theorem sortDesc_sorted (l : List CorrectionAction) :
    (List.insertionSort (fun a b => b.location.start ≤ a.location.start) l).Pairwise
      (fun a b => b.location.start ≤ a.location.start) := by
  haveI : IsTotal CorrectionAction (fun a b => b.location.start ≤ a.location.start) :=
    ⟨fun a b => Nat.le_total b.location.start a.location.start⟩
  haveI : IsTrans CorrectionAction (fun a b => b.location.start ≤ a.location.start) :=
    ⟨fun _ _ _ hab hbc => le_trans hbc hab⟩
  exact List.sorted_insertionSort _ l

/-- Nonempty pairwise-disjoint spans have pairwise distinct starts (shared
helper). -/
theorem disjoint_ne_starts {l : List CorrectionAction}
    (hne : ∀ a ∈ l, a.location.start < a.location.«end»)
    (hdisj : pairwiseDisjoint l) :
    l.Pairwise (fun a b => a.location.start ≠ b.location.start) := by
  rw [pairwiseDisjoint] at hdisj
  refine List.Pairwise.imp_of_mem ?_ hdisj
  intro a b ha hb hab
  have h1 := hne a ha
  have h2 := hne b hb
  rcases hab with h | h
  · intro heq
    omega
  · intro heq
    omega

/-- With distinct starts, the corrector's sort is strictly descending
(shared helper). -/
theorem sortDesc_strict {l : List CorrectionAction}
    (hne : l.Pairwise (fun a b => a.location.start ≠ b.location.start)) :
    strictDescByStart
      (List.insertionSort (fun a b => b.location.start ≤ a.location.start) l) := by
  rw [strictDescByStart]
  have hsorted := sortDesc_sorted l
  have hne' := (List.Perm.pairwise_iff (fun h => Ne.symm h)
    (List.perm_insertionSort (fun a b => b.location.start ≤ a.location.start) l)).mpr hne
  exact (hsorted.and hne').imp (fun h => lt_of_le_of_ne h.1 h.2.symm)

/-- Two strictly-descending permutations of each other coincide (shared
helper). -/
theorem strictDesc_perm_eq {l1 l2 : List CorrectionAction}
    (hp : l1.Perm l2) (h1 : strictDescByStart l1) (h2 : strictDescByStart l2) : l1 = l2 := by
  haveI : IsAntisymm CorrectionAction (fun a b => b.location.start < a.location.start) :=
    ⟨fun _ _ hab hba => absurd (lt_trans hab hba) (lt_irrefl _)⟩
  exact List.eq_of_perm_of_sorted hp h1 h2

/-- C2 counterexample: two distinct empty-span insertions at the same
position have pairwise non-overlapping spans inside the text `"xy"`, yet
pooling them in the two orders and committing yields different texts — the
claim as stated fails on empty spans. -/
theorem C2_counterexample :
    pairwiseDisjoint [insertActA, insertActB] ∧
    insertActA.location.«end» ≤ ("xy").toList.length ∧
    insertActB.location.«end» ≤ ("xy").toList.length ∧
    [insertActA, insertActB].Perm [insertActB, insertActA] ∧
    commitCorrections ("xy").toList [insertActA, insertActB] ≠
      commitCorrections ("xy").toList [insertActB, insertActA] := by
  refine ⟨?_, by decide, by decide, List.Perm.swap _ _ _, by decide⟩
  refine List.Pairwise.cons ?_ (List.pairwise_singleton _ _)
  intro b hb
  rw [List.mem_singleton] at hb
  subst hb
  exact Or.inl (by decide)

/-- C2 amended: restricted to actions with nonempty spans (so no two share
a start offset), the committed text is a function of the action set alone —
any pooling order sorts to the same strictly-descending sequence, and any
application order consistent with the right-to-left rule is that sequence. -/
theorem C2_commit_order_independent (text : JStr) (l1 l2 : List CorrectionAction)
    (hperm : l1.Perm l2)
    (hspans : ∀ a ∈ l1, a.location.start < a.location.«end» ∧
      a.location.«end» ≤ text.length)
    (hdisj : pairwiseDisjoint l1) :
    commitCorrections text l1 = commitCorrections text l2 ∧
    ∀ l', l'.Perm l1 → strictDescByStart l' →
      l'.foldl spliceJS text = commitCorrections text l1 := by
  have hne1 : ∀ a ∈ l1, a.location.start < a.location.«end» := fun a ha => (hspans a ha).1
  have hnes1 := disjoint_ne_starts hne1 hdisj
  have hnes2 := (List.Perm.pairwise_iff (fun h => Ne.symm h) hperm).mp hnes1
  have hs1 := sortDesc_strict hnes1
  have hs2 := sortDesc_strict hnes2
  have hperm12 :
      (List.insertionSort (fun a b => b.location.start ≤ a.location.start) l1).Perm
        (List.insertionSort (fun a b => b.location.start ≤ a.location.start) l2) :=
    ((List.perm_insertionSort _ l1).trans hperm).trans
      (List.perm_insertionSort _ l2).symm
  have heq := strictDesc_perm_eq hperm12 hs1 hs2
  constructor
  · rw [commitCorrections, commitCorrections, heq]
  · intro l' hl' hl's
    have hperm' : l'.Perm
        (List.insertionSort (fun a b => b.location.start ≤ a.location.start) l1) :=
      hl'.trans (List.perm_insertionSort _ l1).symm
    have hl'eq := strictDesc_perm_eq hperm' hl's hs1
    rw [commitCorrections, hl'eq]

/-- Witness for C2 at two disjoint nonempty replace actions on `"hello"`. -/
theorem C2_commit_order_independent_witness :
    commitCorrections ("hello").toList [wAct1, wAct2] =
      commitCorrections ("hello").toList [wAct2, wAct1] := by
  refine (C2_commit_order_independent ("hello").toList [wAct1, wAct2] [wAct2, wAct1]
    (List.Perm.swap _ _ _) (by decide) ?_).1
  refine List.Pairwise.cons ?_ (List.pairwise_singleton _ _)
  intro b hb
  rw [List.mem_singleton] at hb
  subst hb
  exact Or.inl (by decide)

/-- Every candidate the matcher returns consumes at least `minLen` and at
most the remaining subject (shared helper). -/
theorem run_bounds : ∀ (fuel : Nat) (re : RE) (s : JStr) (prev : Option Char)
    (nc : Nat × Option JStr), nc ∈ run fuel re s prev →
      minLen re ≤ nc.1 ∧ nc.1 ≤ s.length := by
  intro fuel
  induction fuel with
  | zero =>
    intro re s prev nc h
    simp [run] at h
  | succ fuel ih =>
    intro re s prev nc h
    cases re with
    | eps =>
      simp only [run, List.mem_singleton] at h
      subst h
      simp [minLen]
    | cls p =>
      cases s with
      | nil => simp [run] at h
      | cons c cs =>
        simp only [run] at h
        split_ifs at h with hpc
        · rw [List.mem_singleton] at h
          subst h
          simp [minLen]
        · simp at h
    | bol =>
      simp only [run] at h
      split_ifs at h
      · rw [List.mem_singleton] at h
        subst h
        simp [minLen]
      · simp at h
    | eol =>
      cases s with
      | nil =>
        simp only [run, List.mem_singleton] at h
        subst h
        simp [minLen]
      | cons c cs =>
        simp only [run] at h
        split_ifs at h
        · rw [List.mem_singleton] at h
          subst h
          simp [minLen]
        · simp at h
    | seq a b =>
      simp only [run, List.mem_flatMap, List.mem_map] at h
      obtain ⟨x, hx, y, hy, rfl⟩ := h
      have h1 := ih a s prev x hx
      have h2 := ih b (s.drop x.1) (prevAfter s prev x.1) y hy
      rw [List.length_drop] at h2
      simp only [minLen]
      omega
    | alt a b =>
      simp only [run, List.mem_append] at h
      rcases h with h | h
      · have := ih a s prev nc h
        exact ⟨le_trans (min_le_left _ _) this.1, this.2⟩
      · have := ih b s prev nc h
        exact ⟨le_trans (min_le_right _ _) this.1, this.2⟩
    | grp a =>
      simp only [run, List.mem_map] at h
      obtain ⟨x, hx, rfl⟩ := h
      have := ih a s prev x hx
      simpa [minLen] using this
    | star a lz =>
      simp only [run] at h
      have hstep : ∀ nc' : Nat × Option JStr,
          nc' ∈ (run fuel a s prev).flatMap (fun x =>
            if x.1 = 0 then []
            else (run fuel (RE.star a lz) (s.drop x.1) (prevAfter s prev x.1)).map
              fun mc => (x.1 + mc.1, (Option.none : Option JStr))) →
          minLen (RE.star a lz) ≤ nc'.1 ∧ nc'.1 ≤ s.length := by
        intro nc' h'
        rw [List.mem_flatMap] at h'
        obtain ⟨x, hx, h'⟩ := h'
        split_ifs at h' with hx0
        · simp at h'
        · rw [List.mem_map] at h'
          obtain ⟨y, hy, rfl⟩ := h'
          have h1 := ih a s prev x hx
          have h2 := ih (RE.star a lz) (s.drop x.1) (prevAfter s prev x.1) y hy
          rw [List.length_drop] at h2
          simp only [minLen]
          omega
      split_ifs at h with hlz
      · rcases List.mem_cons.mp h with rfl | h
        · simp [minLen]
        · exact hstep nc h
      · rcases List.mem_append.mp h with h | h
        · exact hstep nc h
        · rw [List.mem_singleton] at h
          subst h
          simp [minLen]

/-- Every match the exec loop emits is a candidate of `run` at its start
position (shared helper). -/
theorem execFrom_run_mem (re : RE) (full : JStr) :
    ∀ (fuel i : Nat) (m : Nat × Nat × Option JStr), m ∈ execFrom re full i fuel →
      (m.2.1, m.2.2) ∈
        run (runFuel re full.length) re (full.drop m.1) (prevAt full m.1) := by
  intro fuel
  induction fuel with
  | zero =>
    intro i m h
    simp [execFrom] at h
  | succ fuel ih =>
    intro i m h
    rw [execFrom] at h
    split_ifs at h with hlen
    · simp at h
    · rcases hr : run (runFuel re full.length) re (full.drop i) (prevAt full i) with
        _ | ⟨nc, rest⟩
      · rw [hr] at h
        exact ih (i + 1) m h
      · rw [hr] at h
        rcases List.mem_cons.mp h with rfl | h
        · simp only
          rw [hr]
          exact List.mem_cons_self _ _
        · exact ih _ m h

/-- Every claim pattern's regex matches at least one character (shared
helper; each of the 15 rules requires a digit). -/
theorem claim_patterns_minLen : ∀ p ∈ CLAIM_PATTERNS, 1 ≤ minLen p.regex := by
  intro p hp
  fin_cases hp <;> decide

/-- C7: every claim `parse` extracts has a nonempty span, and the
substring of the original text at `[startIndex, endIndex)` is exactly the
claim's `rawText`. -/
theorem C7_span_correctness (text : JStr) (c : NumericClaim)
    (hc : c ∈ (parse text).claims) :
    c.startIndex < c.endIndex ∧ substringJS text c.startIndex c.endIndex = c.rawText := by
  have hc' : c ∈ extractClaims text := hc
  rw [extractClaims] at hc'
  have hc'' := (List.perm_insertionSort (fun a b => a.startIndex ≤ b.startIndex)
    (CLAIM_PATTERNS.flatMap fun pat =>
      claimsOfPattern pat text (splitOnChar '\n' text))).mem_iff.mp hc'
  rw [List.mem_flatMap] at hc''
  obtain ⟨pat, hpat, hcm⟩ := hc''
  rw [claimsOfPattern, List.mem_map] at hcm
  obtain ⟨m, hm, rfl⟩ := hcm
  rw [execAll] at hm
  have hrun := execFrom_run_mem pat.regex text (text.length + 1) 0 m hm
  have hb := run_bounds (runFuel pat.regex text.length) pat.regex (text.drop m.1)
    (prevAt text m.1) (m.2.1, m.2.2) hrun
  have hmin := claim_patterns_minLen pat hpat
  rw [List.length_drop] at hb
  dsimp only
  have hlen : ((text.drop m.1).take m.2.1).length = m.2.1 := by
    rw [List.length_take, List.length_drop]
    omega
  constructor
  · rw [hlen]
    omega
  · rw [substringJS, Nat.add_sub_cancel_left, hlen]

/-- Witness for C7 at the count-correction scenario's single claim. -/
theorem C7_span_correctness_witness :
    ((parse c1Text).claims.getD 0 wClaim).startIndex <
      ((parse c1Text).claims.getD 0 wClaim).endIndex := by
  exact (C7_span_correctness c1Text ((parse c1Text).claims.getD 0 wClaim) (by decide)).1

end DaniSpec
